import Mathlib

/-!
# Verification of the contact-importer pipeline

Shallow embedding of the contact-import pipeline: file parsing
(`FileProcessingService`), field inference (`FieldMappingService`), the
duplicate resolver and reconciliation loops of `ImportProcessingStep`, the
contact store (`contactService`), and the import-modal step machine
(`ImportModal`).

JavaScript strings are modelled as `List Char` (`Str`).  JavaScript string
operations (`toLowerCase`, `trim`, `includes`, `replace(/\D/g,"")`, regex
tests) are given executable Lean counterparts, restricted to the ASCII
behaviour the data exercises.  Firestore timestamps are modelled as `Nat`.
-/

namespace ContactImporter

/-- JavaScript strings, modelled as lists of characters. -/
abbrev Str := List Char

/-- Embed a Lean string literal as a `Str`. -/
def js (s : String) : Str := s.data

/-- Whitespace as recognised by JavaScript `trim` / `\s` (ASCII fragment). -/
def isJsWs (c : Char) : Bool :=
  c = ' ' || c = '\t' || c = '\n' || c = '\r' || c = '\x0b' || c = '\x0c'

/-- ASCII digit, the JavaScript `\d` character class. -/
def isDigitCh (c : Char) : Bool := '0' ≤ c && c ≤ '9'

/-- The uppercase/lowercase pairs of the ASCII alphabet. -/
def upLowPairs : List (Char × Char) :=
  [('A', 'a'), ('B', 'b'), ('C', 'c'), ('D', 'd'), ('E', 'e'), ('F', 'f'),
   ('G', 'g'), ('H', 'h'), ('I', 'i'), ('J', 'j'), ('K', 'k'), ('L', 'l'),
   ('M', 'm'), ('N', 'n'), ('O', 'o'), ('P', 'p'), ('Q', 'q'), ('R', 'r'),
   ('S', 's'), ('T', 't'), ('U', 'u'), ('V', 'v'), ('W', 'w'), ('X', 'x'),
   ('Y', 'y'), ('Z', 'z')]

/-- JavaScript `toLowerCase` (ASCII fragment), per character. -/
def lowerCh (c : Char) : Char :=
  ((upLowPairs.find? (fun p => p.1 == c)).map (fun p => p.2)).getD c

/-- JavaScript `s.toLowerCase()`. -/
def jsLower (s : Str) : Str := s.map lowerCh

/-- JavaScript `s.trim()`: drop leading and trailing whitespace. -/
def jsTrim (s : Str) : Str :=
  ((s.dropWhile isJsWs).reverse.dropWhile isJsWs).reverse

/-- JavaScript `a.includes(b)`: substring containment. -/
def jsIncludes (a b : Str) : Bool := decide (b <:+: a)

/-- JavaScript truthiness for a string: non-empty. -/
def jsTruthy (s : Str) : Bool := !s.isEmpty

/-- JavaScript truthiness for an optional string (`undefined` is falsy). -/
def jsTruthyO (s : Option Str) : Bool :=
  match s with
  | none => false
  | some v => jsTruthy v

/-- `s.replace(/\D/g, "")`: keep only ASCII digits. -/
def stripNonDigits (s : Str) : Str := s.filter isDigitCh

/-- Render a natural number in decimal, as JavaScript `${n}` does. -/
def natStr (n : Nat) : Str := (toString n).data

/-- JavaScript `list.join(sep)`. -/
def joinSep (sep : Str) : List Str → Str
  | [] => []
  | [x] => x
  | x :: xs => x ++ sep ++ joinSep sep xs

/-! ## Basic lemmas about the string model -/

theorem jsTrim_isInfix (s : Str) : jsTrim s <:+: s := by
  unfold jsTrim
  have h1 : s.dropWhile isJsWs <:+ s := List.dropWhile_suffix _
  have h2 : ((s.dropWhile isJsWs).reverse.dropWhile isJsWs).reverse <+: s.dropWhile isJsWs := by
    have hs : (s.dropWhile isJsWs).reverse.dropWhile isJsWs <:+ (s.dropWhile isJsWs).reverse :=
      List.dropWhile_suffix _
    have := List.reverse_prefix.mpr hs
    simpa using this
  exact (h2.isInfix).trans h1.isInfix

theorem jsIncludes_of_isInfix {a b : Str} (h : b <:+: a) : jsIncludes a b = true := by
  simpa [jsIncludes] using h

theorem jsIncludes_trim_self (s : Str) : jsIncludes s (jsTrim s) = true :=
  jsIncludes_of_isInfix (jsTrim_isInfix s)

theorem jsIncludes_self (s : Str) : jsIncludes s s = true :=
  jsIncludes_of_isInfix (List.infix_rfl)

/-- Lowercasing maps whitespace to itself and non-whitespace to non-whitespace. -/
theorem isJsWs_lowerCh (c : Char) : isJsWs (lowerCh c) = isJsWs c := by
  unfold lowerCh
  cases hf : upLowPairs.find? (fun p => p.1 == c) with
  | none => rfl
  | some p =>
    have hmem : p ∈ upLowPairs := List.mem_of_find?_eq_some hf
    have hc : p.1 = c := by
      have := List.find?_some hf
      simpa using this
    have hws : ∀ q ∈ upLowPairs, isJsWs q.1 = false ∧ isJsWs q.2 = false := by decide
    have h1 := (hws p hmem).1
    have h2 := (hws p hmem).2
    rw [← hc]
    simp [h1, h2]

theorem lowerCh_idem (c : Char) : lowerCh (lowerCh c) = lowerCh c := by
  unfold lowerCh
  cases hf : upLowPairs.find? (fun p => p.1 == c) with
  | none => simp [hf]
  | some p =>
    have hmem : p ∈ upLowPairs := List.mem_of_find?_eq_some hf
    have hlow : ∀ q ∈ upLowPairs, upLowPairs.find? (fun r => r.1 == q.2) = none := by decide
    simp [hf, hlow p hmem]

theorem jsTrim_jsLower (s : Str) : jsTrim (jsLower s) = jsLower (jsTrim s) := by
  have hcomp : (isJsWs ∘ lowerCh) = isJsWs := funext isJsWs_lowerCh
  have hdrop : ∀ l : Str, (l.map lowerCh).dropWhile isJsWs = (l.dropWhile isJsWs).map lowerCh := by
    intro l
    rw [List.dropWhile_map, hcomp]
  unfold jsTrim jsLower
  rw [hdrop, ← List.map_reverse, hdrop, List.map_reverse]

theorem jsTrim_length_lower (s : Str) : (jsTrim (jsLower s)).length = (jsTrim s).length := by
  rw [jsTrim_jsLower]; simp [jsLower]

/-! ## Regex models

All regex literals of the repository are given executable models on `Str`. -/

/-- A character admissible in the email regex classes: `[^\s@]`. -/
def emailOkCh (c : Char) : Bool := !isJsWs c && c != '@'

/-- The regex `/^[^\s@]+@[^\s@]+\.[^\s@]+$/` used by `validateEmail`
(ImportProcessingStep) and `DATA_PATTERNS.email` (field-mapping): a non-empty
run of non-space non-`@` characters, an `@`, and a domain part containing a
dot with non-empty pieces on both sides. -/
def emailRegexTest (s : Str) : Bool :=
  let A := s.takeWhile (fun c => c != '@')
  match s.dropWhile (fun c => c != '@') with
  | [] => false
  | _ :: B =>
    !A.isEmpty && A.all emailOkCh && B.all emailOkCh &&
      (List.range B.length).any (fun i =>
        B.getD i ' ' == '.' && decide (1 ≤ i) && decide (i + 1 < B.length))

/-- Strip one optional occurrence of `c` at the front (regex `[c]?`). -/
def stripOpt (c : Char) : Str → Str
  | [] => []
  | a :: rest => if a = c then rest else a :: rest

/-- A character of the class `[\d\s\-\(\)]`. -/
def phoneClassCh (c : Char) : Bool :=
  isDigitCh c || isJsWs c || c = '-' || c = '(' || c = ')'

/-- `DATA_PATTERNS.phone`: `/^[\+]?[1-9][\d]{0,15}$|^[\+]?[(]?[\d\s\-\(\)]{10,}$/`. -/
def phoneRegexTest (s : Str) : Bool :=
  let alt1 :=
    let u := stripOpt '+' s
    match u with
    | [] => false
    | d :: rest => ('1' ≤ d && d ≤ '9') && rest.all isDigitCh && decide (rest.length ≤ 15)
  let alt2 :=
    let v := stripOpt '(' (stripOpt '+' s)
    decide (10 ≤ v.length) && v.all phoneClassCh
  alt1 || alt2

/-- `sample.toString().replace(/[\s\-\(\)]/g, "")`: the cleaning applied
before testing `DATA_PATTERNS.phone`. -/
def stripPhoneSeps (s : Str) : Str :=
  s.filter (fun c => !(isJsWs c || c = '-' || c = '(' || c = ')'))

/-- Split a string at every `-` or `/` (the `[-\/]` separators of the date regex). -/
def splitDateSeps (s : Str) : List Str :=
  let rec go : Str → Str → List Str
    | [], acc => [acc.reverse]
    | c :: rest, acc =>
      if c = '-' || c = '/' then acc.reverse :: go rest []
      else go rest (c :: acc)
  go s []

/-- `DATA_PATTERNS.date`:
`/^\d{4}[-\/]\d{2}[-\/]\d{2}$|^\d{2}[-\/]\d{2}[-\/]\d{4}$|^\d{1,2}[-\/]\d{1,2}[-\/]\d{4}$/`. -/
def dateRegexTest (s : Str) : Bool :=
  match splitDateSeps s with
  | [a, b, c] =>
    a.all isDigitCh && b.all isDigitCh && c.all isDigitCh &&
      ((a.length == 4 && b.length == 2 && c.length == 2) ||
       (a.length == 2 && b.length == 2 && c.length == 4) ||
       ((a.length == 1 || a.length == 2) && (b.length == 1 || b.length == 2) &&
         c.length == 4))
  | _ => false

/-- `DATA_PATTERNS.number`: `/^\d+(\.\d+)?$/`. -/
def numberRegexTest (s : Str) : Bool :=
  let intPart := s.takeWhile isDigitCh
  match s.dropWhile isDigitCh with
  | [] => !intPart.isEmpty
  | c :: frac => !intPart.isEmpty && c == '.' && !frac.isEmpty && frac.all isDigitCh

/-- `DATA_PATTERNS.boolean`: `/^(true|false|yes|no|y|n|1|0)$/i`. -/
def booleanRegexTest (s : Str) : Bool :=
  let t := jsLower s
  t == js "true" || t == js "false" || t == js "yes" || t == js "no" ||
    t == js "y" || t == js "n" || t == js "1" || t == js "0"

/-! ## Contact store (`contactService`, src/lib/collections.ts) -/

/-- A stored contact.  Core fields are the total string fields declared by the
`Contact` interface; `extra` holds the remaining data fields (`agentUid`,
custom fields).  Timestamps are modelled as `Nat`. -/
structure Contact where
  id : Nat
  firstName : Str
  lastName : Str
  email : Str
  phone : Str
  extra : List (Str × Str)
  createdAt : Nat
  updatedAt : Nat
deriving DecidableEq

/-- The per-contact predicate of `contactService.searchContacts`: some field
contains the (already lowercased) term; the phone field is not lowercased. -/
def searchRowMatch (term : Str) (c : Contact) : Bool :=
  jsIncludes (jsLower c.firstName) term ||
  jsIncludes (jsLower c.lastName) term ||
  jsIncludes (jsLower c.email) term ||
  jsIncludes c.phone term

/-- `contactService.searchContacts`: fetch all contacts and filter client-side
by substring containment of the lowercased search term. -/
def searchContacts (store : List Contact) (searchTerm : Str) : List Contact :=
  store.filter (searchRowMatch (jsLower searchTerm))

/-! ## Duplicate resolver and validation (ImportProcessingStep.tsx) -/

/-- `normalizePhone`: strip all non-digit characters. -/
def normalizePhone (phone : Str) : Str := stripNonDigits phone

/-- `normalizeEmail`: `email.toLowerCase().trim()`. -/
def normalizeEmail (email : Str) : Str := jsTrim (jsLower email)

/-- The candidate record `contactData`: a JS object of string fields. -/
abbrev ContactData := List (Str × Str)

/-- Read a field of the candidate object (`undefined` when absent). -/
def cdGet (cd : ContactData) (k : Str) : Option Str :=
  (cd.find? (fun p => p.1 == k)).map (fun p => p.2)

/-- Assign a field of the candidate object (later assignments override). -/
def cdSet (cd : ContactData) (k v : Str) : ContactData :=
  if cd.any (fun p => p.1 == k) then
    cd.map (fun p => if p.1 == k then (k, v) else p)
  else cd ++ [(k, v)]

/-- The result record of `checkForDuplicates`. -/
structure DupResult where
  isDuplicate : Bool
  existingContact : Option Contact
  confidence : Nat
deriving DecidableEq

/-- `checkForDuplicates` (the non-throwing path): email rule (100), then phone
rule (95), then name rule (70), else not-duplicate (0).  Each rule looks for a
match inside the list returned by `searchContacts`. -/
def checkForDuplicates (store : List Contact) (cd : ContactData) : DupResult :=
  let email := if jsTruthyO (cdGet cd (js "email")) then
      normalizeEmail ((cdGet cd (js "email")).getD []) else []
  let phone := if jsTruthyO (cdGet cd (js "phone")) then
      normalizePhone ((cdGet cd (js "phone")).getD []) else []
  let firstName := jsTrim (jsLower ((cdGet cd (js "firstName")).getD []))
  let lastName := jsTrim (jsLower ((cdGet cd (js "lastName")).getD []))
  let emailMatch :=
    if jsTruthy email then
      (searchContacts store email).find? (fun c => normalizeEmail c.email == email)
    else none
  match emailMatch with
  | some c => ⟨true, some c, 100⟩
  | none =>
    let phoneMatch :=
      if jsTruthy phone then
        (searchContacts store phone).find? (fun c => normalizePhone c.phone == phone)
      else none
    match phoneMatch with
    | some c => ⟨true, some c, 95⟩
    | none =>
      let nameMatch :=
        if jsTruthy firstName && jsTruthy lastName then
          (searchContacts store (firstName ++ js " " ++ lastName)).find? (fun c =>
            jsTrim (jsLower c.firstName) == firstName &&
            jsTrim (jsLower c.lastName) == lastName)
        else none
      match nameMatch with
      | some c => ⟨true, some c, 70⟩
      | none => ⟨false, none, 0⟩

/-- `validateEmail`: test against the email regex. -/
def validateEmail (email : Str) : Bool := emailRegexTest email

/-- `validatePhone`: at least 10 digits after stripping non-digits. -/
def validatePhone (phone : Str) : Bool := decide (10 ≤ (stripNonDigits phone).length)

/-- Truthiness of `field?.trim()`: present and not blank. -/
def presentNonBlank (o : Option Str) : Bool :=
  match o with
  | none => false
  | some v => jsTruthy (jsTrim v)

/-- `validateContactData`: collect all violated rules, in source order. -/
def validateContactData (cd : ContactData) : List Str :=
  (if !presentNonBlank (cdGet cd (js "firstName")) then [js "First name is required"] else []) ++
  (if !presentNonBlank (cdGet cd (js "lastName")) then [js "Last name is required"] else []) ++
  (if !presentNonBlank (cdGet cd (js "email")) then [js "Email is required"] else []) ++
  (if !presentNonBlank (cdGet cd (js "phone")) then [js "Phone is required"] else []) ++
  (if jsTruthyO (cdGet cd (js "email")) &&
      !validateEmail ((cdGet cd (js "email")).getD []) then [js "Invalid email format"] else []) ++
  (if jsTruthyO (cdGet cd (js "phone")) &&
      !validatePhone ((cdGet cd (js "phone")).getD []) then [js "Invalid phone format"] else [])

/-! ## Candidate construction and the two pipeline passes
(ImportProcessingStep.tsx: `startProcessing`, `handleMoveToContacts`) -/

/-- One entry of the mapping set (`FieldDetectionResult`). -/
structure Mapping where
  columnName : Str
  suggestedField : Str
  confidence : Int
  dataType : Str
  sampleData : List Str
  isCustomField : Bool
deriving DecidableEq

/-- `headers.indexOf(name)`: index of the first occurrence, if any. -/
def jsIndexOf (headers : List Str) (name : Str) : Option Nat :=
  headers.findIdx? (fun h => h == name)

/-- Build `contactData` from a row: for each mapping whose `suggestedField` is
truthy and not the sentinel, copy the trimmed cell when the cell is truthy
(`indexOf` miss or falsy cell skips the field). -/
def buildContactData (headers : List Str) (mappings : List Mapping) (row : List Str) :
    ContactData :=
  mappings.foldl (fun cd m =>
    if jsTruthy m.suggestedField && m.suggestedField != js "new_custom_field" then
      match jsIndexOf headers m.columnName with
      | some ci =>
        match row.get? ci with
        | some cell => if jsTruthy cell then cdSet cd m.suggestedField (jsTrim cell) else cd
        | none => cd
      | none => cd
    else cd) []

/-- The `results` record accumulated by `startProcessing`. -/
structure ProcessingResults where
  imported : Nat
  merged : Nat
  errors : Nat
  errorDetails : List Str
deriving DecidableEq

/-- The error message recorded for data row `i` (0-based): `Row ${i + 2}: ...`. -/
def rowErrorMsg (i : Nat) (errs : List Str) : Str :=
  js "Row " ++ natStr (i + 2) ++ js ": " ++ joinSep (js ", ") errs

/-- One iteration of the `startProcessing` counting loop for data row `i`. -/
def countRowStep (store : List Contact) (headers : List Str) (mappings : List Mapping)
    (r : ProcessingResults) (i : Nat) (row : List Str) : ProcessingResults :=
  let cd := buildContactData headers mappings row
  let errs := validateContactData cd
  if !errs.isEmpty then
    { r with errors := r.errors + 1, errorDetails := r.errorDetails ++ [rowErrorMsg i errs] }
  else if (checkForDuplicates store cd).isDuplicate then
    { r with merged := r.merged + 1 }
  else
    { r with imported := r.imported + 1 }

/-- The counting pass of `startProcessing`: classify every row against the
(unmodified) store and accumulate the displayed results. -/
def startProcessing (store : List Contact) (headers : List Str) (mappings : List Mapping)
    (rows : List (List Str)) : ProcessingResults :=
  rows.enum.foldl (fun r p => countRowStep store headers mappings r p.1 p.2) ⟨0, 0, 0, []⟩

/-- The JS spread `{...existing, ...contactData, updatedAt: now}`: every key
present in the candidate overrides, all other fields are kept. -/
def coreKeys : List Str := [js "firstName", js "lastName", js "email", js "phone"]

/-- Override/extend the extra fields with the candidate's non-core fields. -/
def mergeExtra (base upd : List (Str × Str)) : List (Str × Str) :=
  base.filter (fun p => !(upd.any (fun q => q.1 == p.1))) ++ upd

/-- Non-core fields of the candidate object. -/
def cdExtra (cd : ContactData) : List (Str × Str) :=
  cd.filter (fun p => !(coreKeys.any (fun k => k == p.1)))

/-- `{...existing, ...contactData, updatedAt: new Date()}`. -/
def spreadContact (c : Contact) (cd : ContactData) (now : Nat) : Contact :=
  { c with
    firstName := (cdGet cd (js "firstName")).getD c.firstName
    lastName := (cdGet cd (js "lastName")).getD c.lastName
    email := (cdGet cd (js "email")).getD c.email
    phone := (cdGet cd (js "phone")).getD c.phone
    extra := mergeExtra c.extra (cdExtra cd)
    updatedAt := now }

/-- `{...contactData, createdAt: new Date(), updatedAt: new Date()}` stored
under a fresh document id. -/
def freshContact (cd : ContactData) (cid : Nat) (now : Nat) : Contact :=
  { id := cid
    firstName := (cdGet cd (js "firstName")).getD []
    lastName := (cdGet cd (js "lastName")).getD []
    email := (cdGet cd (js "email")).getD []
    phone := (cdGet cd (js "phone")).getD []
    extra := cdExtra cd
    createdAt := now
    updatedAt := now }

/-- `contactService.updateContact(id, data)`: replace the document with `id`. -/
def updateContactInStore (store : List Contact) (cid : Nat) (newc : Contact) :
    List Contact :=
  store.map (fun c => if c.id == cid then newc else c)

/-- State threaded by the `handleMoveToContacts` save loop. -/
structure SaveState where
  store : List Contact
  nextId : Nat
  savedCount : Nat
  mergedCount : Nat
deriving DecidableEq

/-- One iteration of the `handleMoveToContacts` save loop: skip invalid rows,
merge into the matched contact, otherwise create a fresh one. -/
def saveRowStep (headers : List Str) (mappings : List Mapping) (now : Nat)
    (st : SaveState) (row : List Str) : SaveState :=
  let cd := buildContactData headers mappings row
  let errs := validateContactData cd
  if !errs.isEmpty then st
  else
    let dup := checkForDuplicates st.store cd
    match dup.isDuplicate, dup.existingContact with
    | true, some ex =>
      { st with
        store := updateContactInStore st.store ex.id (spreadContact ex cd now)
        mergedCount := st.mergedCount + 1 }
    | _, _ =>
      { st with
        store := st.store ++ [freshContact cd st.nextId now]
        nextId := st.nextId + 1
        savedCount := st.savedCount + 1 }

/-- `handleMoveToContacts`: refuses to run when the mapping set is empty or the
counting pass recorded errors; otherwise saves every row and reports an
outcome whose `errors` is the literal 0. -/
def handleMoveToContacts (store : List Contact) (nextId : Nat) (headers : List Str)
    (mappings : List Mapping) (rows : List (List Str)) (priorErrors : Nat) (now : Nat) :
    Option (SaveState × ProcessingResults) :=
  if mappings.isEmpty || 0 < priorErrors then none
  else
    let st := rows.foldl (saveRowStep headers mappings now) ⟨store, nextId, 0, 0⟩
    some (st, ⟨st.savedCount, st.mergedCount, 0, []⟩)

/-! ## Fault-injected store (for the error-handling claim)

`contactService` calls go to Firestore and may reject; the flags inject a
failing read (`searchContacts`) or a failing write (`createContact` /
`updateContact`). -/

structure FaultyStore where
  contacts : List Contact
  nextId : Nat
  searchErr : Bool
  writeErr : Bool
deriving DecidableEq

/-- `contactService.searchContacts`, possibly rejecting. -/
def searchContactsE (s : FaultyStore) (term : Str) : Except Str (List Contact) :=
  if s.searchErr then Except.error (js "storage read failed")
  else Except.ok (searchContacts s.contacts term)

/-- The `try` block of `checkForDuplicates`: each query may throw. -/
def checkForDuplicatesBody (s : FaultyStore) (cd : ContactData) : Except Str DupResult :=
  let email := if jsTruthyO (cdGet cd (js "email")) then
      normalizeEmail ((cdGet cd (js "email")).getD []) else []
  let phone := if jsTruthyO (cdGet cd (js "phone")) then
      normalizePhone ((cdGet cd (js "phone")).getD []) else []
  let firstName := jsTrim (jsLower ((cdGet cd (js "firstName")).getD []))
  let lastName := jsTrim (jsLower ((cdGet cd (js "lastName")).getD []))
  (if jsTruthy email then searchContactsE s email else Except.ok []).bind (fun q1 =>
    match q1.find? (fun c => normalizeEmail c.email == email) with
    | some c => Except.ok ⟨true, some c, 100⟩
    | none =>
      (if jsTruthy phone then searchContactsE s phone else Except.ok []).bind (fun q2 =>
        match q2.find? (fun c => normalizePhone c.phone == phone) with
        | some c => Except.ok ⟨true, some c, 95⟩
        | none =>
          (if jsTruthy firstName && jsTruthy lastName then
              searchContactsE s (firstName ++ js " " ++ lastName)
            else Except.ok []).bind (fun q3 =>
            match q3.find? (fun c =>
                jsTrim (jsLower c.firstName) == firstName &&
                jsTrim (jsLower c.lastName) == lastName) with
            | some c => Except.ok ⟨true, some c, 70⟩
            | none => Except.ok ⟨false, none, 0⟩)))

/-- `checkForDuplicates` with its `catch`: a rejected query is converted into a
not-duplicate result. -/
def checkForDuplicatesE (s : FaultyStore) (cd : ContactData) : DupResult :=
  match checkForDuplicatesBody s cd with
  | Except.ok r => r
  | Except.error _ => ⟨false, none, 0⟩

/-- `contactService.createContact`, possibly rejecting. -/
def createContactE (s : FaultyStore) (c : Contact) : Except Str FaultyStore :=
  if s.writeErr then Except.error (js "storage write failed")
  else Except.ok { s with contacts := s.contacts ++ [c], nextId := s.nextId + 1 }

/-- `contactService.updateContact`, possibly rejecting. -/
def updateContactE (s : FaultyStore) (cid : Nat) (newc : Contact) :
    Except Str FaultyStore :=
  if s.writeErr then Except.error (js "storage write failed")
  else Except.ok { s with contacts := updateContactInStore s.contacts cid newc }

/-- One iteration of the save loop over the fault-injected store; a rejected
write propagates out of the loop. -/
def saveRowStepE (headers : List Str) (mappings : List Mapping) (now : Nat)
    (st : FaultyStore × Nat × Nat) (row : List Str) :
    Except Str (FaultyStore × Nat × Nat) :=
  let cd := buildContactData headers mappings row
  let errs := validateContactData cd
  if !errs.isEmpty then Except.ok st
  else
    let dup := checkForDuplicatesE st.1 cd
    match dup.isDuplicate, dup.existingContact with
    | true, some ex =>
      (updateContactE st.1 ex.id (spreadContact ex cd now)).map
        (fun s => (s, st.2.1, st.2.2 + 1))
    | _, _ =>
      (createContactE st.1 (freshContact cd st.1.nextId now)).map
        (fun s => (s, st.2.1 + 1, st.2.2))

/-- The whole save loop of `handleMoveToContacts` over the fault-injected
store: the first rejected write aborts the remaining rows. -/
def saveRunE (s : FaultyStore) (headers : List Str) (mappings : List Mapping)
    (now : Nat) (rows : List (List Str)) : Except Str (FaultyStore × Nat × Nat) :=
  rows.foldlM (saveRowStepE headers mappings now) (s, 0, 0)

/-- One iteration of the `startProcessing` counting loop over the
fault-injected store. -/
def countRowStepE (s : FaultyStore) (headers : List Str) (mappings : List Mapping)
    (r : ProcessingResults) (i : Nat) (row : List Str) : ProcessingResults :=
  let cd := buildContactData headers mappings row
  let errs := validateContactData cd
  if !errs.isEmpty then
    { r with errors := r.errors + 1, errorDetails := r.errorDetails ++ [rowErrorMsg i errs] }
  else if (checkForDuplicatesE s cd).isDuplicate then
    { r with merged := r.merged + 1 }
  else
    { r with imported := r.imported + 1 }

/-- The counting pass over the fault-injected store.  The only store call it
makes is the duplicate lookup, whose failures are caught inside
`checkForDuplicates`, so the pass as a whole cannot reject: its type is
already total. -/
def startProcessingE (s : FaultyStore) (headers : List Str) (mappings : List Mapping)
    (rows : List (List Str)) : Except Str ProcessingResults :=
  Except.ok (rows.enum.foldl (fun r p => countRowStepE s headers mappings r p.1 p.2)
    ⟨0, 0, 0, []⟩)

/-! ## File parsing (`FileProcessingService.parseCSV`, src/lib/file-processing.ts)

`Papa.parse` is external; the model starts from its output `results.data`
(a list of rows of cells) and mirrors the `complete` callback.  `fileName`,
`fileSize` and `fileType` are omitted as irrelevant to the table shape. -/

structure ParsedFileData where
  headers : List Str
  rows : List (List Str)
  totalRows : Nat
deriving DecidableEq

/-- `cleanHeaders`: trim (when requested) and drop empty headers. -/
def cleanHeaders (headers : List Str) (trimWhitespace : Bool) : List Str :=
  (headers.map (fun h =>
    if !jsTruthy h then []
    else if trimWhitespace then jsTrim h else h)).filter (fun h => 0 < h.length)

/-- `options.maxRows ? dataRows.slice(0, options.maxRows) : dataRows` (a zero
`maxRows` is falsy). -/
def limitRows (maxRows : Option Nat) (dataRows : List (List Str)) : List (List Str) :=
  match maxRows with
  | some n => if n ≠ 0 then dataRows.take n else dataRows
  | none => dataRows

/-- The `complete` callback of `parseCSV`: reject empty input, take the first
row as headers, clean them, and pass the remaining rows through unchanged
(truncated when `maxRows` is a truthy option). -/
def parseCSV (raw : List (List Str)) (maxRows : Option Nat) (trimWhitespace : Bool) :
    Except Str ParsedFileData :=
  if raw.isEmpty then Except.error (js "File is empty")
  else
    let headers := raw.headD []
    let dataRows := raw.tail
    if headers.isEmpty then Except.error (js "No headers found in CSV file")
    else
      let limitedRows := limitRows maxRows dataRows
      Except.ok ⟨cleanHeaders headers trimWhitespace, limitedRows, limitedRows.length⟩

/-! ## Field inference (`FieldMappingService`, src/lib/field-mapping.ts) -/

/-- A contact field definition (`ContactField`). -/
structure ContactField where
  label : Str
  fieldName : Str
  type : Str
  core : Bool
deriving DecidableEq

/-- A user record, as far as agent-email matching needs it. -/
structure User where
  uid : Str
  name : Str
  email : Str
deriving DecidableEq

/-- Letter of the ASCII alphabet. -/
def isAsciiLetter (c : Char) : Bool := ('a' ≤ c && c ≤ 'z') || ('A' ≤ c && c ≤ 'Z')

/-- A character the regex `.` matches (anything but a line terminator). -/
def dotCh (c : Char) : Bool := !(c = '\n' || c = '\r')

/-- Regex `/^pre.?suf$/i` applied to `t`: prefix, at most one middle
character, suffix (`pre`/`suf` given lowercase, `t` lowercased first). -/
def aroundOptCh (pre suf t0 : Str) : Bool :=
  let t := jsLower t0
  let n := pre.length + suf.length
  (t.length == n || t.length == n + 1) &&
    t.take pre.length == pre &&
    t.drop (t.length - suf.length) == suf &&
    ((t.drop pre.length).take (t.length - n)).all dotCh

/-- Regex `/^w$/i`: case-insensitive whole-string equality. -/
def exactCI (w t : Str) : Bool := jsLower t == w

/-- Strip one optional `-` or `.` (the `[-.]?` of the phone header regex). -/
def stripPhoneHdrSep : Str → Str
  | [] => []
  | c :: rest => if c = '-' || c = '.' then rest else c :: rest

/-- Consume exactly `n` digits, returning the remainder. -/
def digitsN (n : Nat) (s : Str) : Option Str :=
  if (s.take n).length == n && (s.take n).all isDigitCh then some (s.drop n) else none

/-- Regex `/^\d{3}[-.]?\d{3}[-.]?\d{4}$/` of the phone field patterns. -/
def phoneHeaderRegexTest (s : Str) : Bool :=
  match digitsN 3 s with
  | none => false
  | some r1 =>
    match digitsN 3 (stripPhoneHdrSep r1) with
    | none => false
    | some r2 =>
      match digitsN 4 (stripPhoneHdrSep r2) with
      | none => false
      | some r3 => r3.isEmpty

/-- One entry of `FIELD_PATTERNS`. -/
structure FieldPatternConfig where
  keywords : List Str
  patterns : List (Str → Bool)
  priority : Nat

/-- `FIELD_PATTERNS`, in object insertion order. -/
def fieldPatternEntries : List (Str × FieldPatternConfig) :=
  [ (js "firstName",
     { keywords := [js "first", js "given", js "fname", js "forename", js "name"]
       patterns := [aroundOptCh (js "first") (js "name"),
                    aroundOptCh (js "given") (js "name"),
                    aroundOptCh (js "f") (js "name")]
       priority := 90 }),
    (js "lastName",
     { keywords := [js "last", js "family", js "surname", js "lname"]
       patterns := [aroundOptCh (js "last") (js "name"),
                    aroundOptCh (js "family") (js "name"),
                    exactCI (js "surname"),
                    aroundOptCh (js "l") (js "name")]
       priority := 90 }),
    (js "email",
     { keywords := [js "email", js "e-mail", js "mail", js "address"]
       patterns := [aroundOptCh (js "e") (js "mail"),
                    aroundOptCh (js "email") (js "address"),
                    fun t => jsIncludes t (js "@")]
       priority := 95 }),
    (js "phone",
     { keywords := [js "phone", js "mobile", js "cell", js "telephone", js "tel",
                    js "number"]
       patterns := [exactCI (js "phone"), exactCI (js "mobile"), exactCI (js "cell"),
                    exactCI (js "tel"), phoneHeaderRegexTest]
       priority := 85 }),
    (js "agentUid",
     { keywords := [js "agent", js "rep", js "representative", js "assigned",
                    js "owner"]
       patterns := [exactCI (js "agent"), exactCI (js "rep"), exactCI (js "assigned"),
                    exactCI (js "owner")]
       priority := 80 }) ]

/-- `Math.round` on a non-negative rational (half rounds up). -/
def jsRound (q : ℚ) : ℤ := ⌊q + 1 / 2⌋

/-- The keyword half of `calculateConfidence`: for every keyword contained in
the lowercased header, add `keyword.length / header.length * 100`. -/
def keywordScore (keywords : List Str) (header : Str) : ℚ :=
  keywords.foldl (fun score kw =>
    if jsIncludes (jsLower header) (jsLower kw) then
      score + ((kw.length : ℚ) / (header.length : ℚ)) * 100
    else score) 0

/-- The name data pattern `/^[a-zA-Z\s\-']+$/` with length `> 1` after trim. -/
def nameSampleTest (s : Str) : Bool :=
  !s.isEmpty &&
    s.all (fun c => isAsciiLetter c || isJsWs c || c = '-' || c.toNat == 39) &&
    decide (1 < (jsTrim s).length)

/-- `getDataPatternScore`: fraction (in percent) of samples matching the data
pattern of the target field; fields without a data pattern score 0. -/
def getDataPatternScore (sampleData : List Str) (fieldName : Str) : ℚ :=
  if sampleData.isEmpty then 0
  else
    let matching : Nat :=
      if fieldName == js "email" then
        (sampleData.filter emailRegexTest).length
      else if fieldName == js "phone" then
        (sampleData.filter (fun v => phoneRegexTest (stripPhoneSeps v))).length
      else if fieldName == js "firstName" || fieldName == js "lastName" then
        (sampleData.filter nameSampleTest).length
      else 0
    ((matching : ℚ) / (sampleData.length : ℚ)) * 100

/-- `calculateConfidence`: 40% header similarity, 60% data pattern score, +20
exact-name bonus, rounded and capped at 100.  JavaScript floats are modelled
as exact rationals. -/
def calculateConfidence (header : Str) (sampleData : List Str) (fieldName : Str) : ℤ :=
  let base : ℚ :=
    match (fieldPatternEntries.find? (fun e => e.1 == fieldName)).map (fun e => e.2) with
    | some config =>
      let kws := keywordScore config.keywords header
      let pat : ℚ := if config.patterns.any (fun p => p header) then 80 else 0
      max kws pat * (2 / 5)
    | none => 0
  let withData := base + getDataPatternScore sampleData fieldName * (3 / 5)
  let total := if jsLower header == jsLower fieldName then withData + 20 else withData
  min (jsRound total) 100

/-- `detectDataType`: first-match chain over up to 10 samples. -/
def detectDataType (sampleData : List Str) : Str :=
  if sampleData.isEmpty then js "text"
  else
    let samples := sampleData.take 10
    if samples.all emailRegexTest then js "email"
    else if samples.all (fun v => phoneRegexTest (stripPhoneSeps v)) then js "phone"
    else if samples.all dateRegexTest then js "datetime"
    else if samples.all numberRegexTest then js "number"
    else if samples.all booleanRegexTest then js "checkbox"
    else js "text"

/-- `isAgentEmail`: some email-shaped sample equals a known user's email. -/
def isAgentEmail (users : List User) (sampleData : List Str) : Bool :=
  if sampleData.isEmpty then false
  else
    let emailSamples := sampleData.filter emailRegexTest
    if emailSamples.isEmpty then false
    else emailSamples.any (fun e => users.any (fun u => u.email == e))

/-- `matchCustomField`: first non-core field whose label and the header
contain one another (either direction), at confidence 75. -/
def matchCustomField (contactFields : List ContactField) (header : Str) :
    Option (Str × ℤ × Str) :=
  let normalizedHeader := jsLower header
  contactFields.findSome? (fun f =>
    if f.core then none
    else if jsIncludes (jsLower f.label) normalizedHeader ||
        jsIncludes normalizedHeader (jsLower f.label) then
      some (f.fieldName, (75 : ℤ), f.type)
    else none)

/-- JavaScript `toUpperCase` (ASCII fragment), per character. -/
def upperCh : Char → Char
  | 'a' => 'A' | 'b' => 'B' | 'c' => 'C' | 'd' => 'D' | 'e' => 'E' | 'f' => 'F'
  | 'g' => 'G' | 'h' => 'H' | 'i' => 'I' | 'j' => 'J' | 'k' => 'K' | 'l' => 'L'
  | 'm' => 'M' | 'n' => 'N' | 'o' => 'O' | 'p' => 'P' | 'q' => 'Q' | 'r' => 'R'
  | 's' => 'S' | 't' => 'T' | 'u' => 'U' | 'v' => 'V' | 'w' => 'W' | 'x' => 'X'
  | 'y' => 'Y' | 'z' => 'Z'
  | c => c

/-- Split at every whitespace, `-` or `_` character (`split(/[\s\-_]/)`,
single-character separators, empty pieces preserved). -/
def splitLabelSeps (s : Str) : List Str :=
  let rec go : Str → Str → List Str
    | [], acc => [acc.reverse]
    | c :: rest, acc =>
      if isJsWs c || c = '-' || c = '_' then acc.reverse :: go rest []
      else go rest (c :: acc)
  go s []

/-- Capitalize one word (`charAt(0).toUpperCase() + slice(1).toLowerCase()`). -/
def capWord : Str → Str
  | [] => []
  | c :: rest => upperCh c :: jsLower rest

/-- `formatFieldLabel`. -/
def formatFieldLabel (header : Str) : Str :=
  joinSep (js " ") ((splitLabelSeps header).map capWord)

/-- `generateFieldName`: lowercase, keep `[a-z0-9\s]`, remove whitespace,
truncate to 20 characters. -/
def generateFieldName (header : Str) : Str :=
  ((((jsLower header).filter (fun c =>
      ('a' ≤ c && c ≤ 'z') || isDigitCh c || isJsWs c)).filter
        (fun c => !isJsWs c)).take 20)

/-- `suggestFieldType`: pass known detected types through, default `text`. -/
def suggestFieldType (sampleData : List Str) : Str :=
  let dataType := detectDataType sampleData
  if dataType == js "email" || dataType == js "phone" || dataType == js "datetime" ||
      dataType == js "number" || dataType == js "checkbox" then dataType
  else js "text"

/-- The `customFieldConfig` suggested for a new custom field. -/
structure CustomFieldConfig where
  label : Str
  fieldName : Str
  type : Str
  core : Bool
deriving DecidableEq

/-- The record returned by `detectField`. -/
structure DetectResult where
  field : Str
  confidence : ℤ
  dataType : Str
  isCustomField : Bool
  customFieldConfig : Option CustomFieldConfig
deriving DecidableEq

/-- The core-pattern loop of `detectField`: first `FIELD_PATTERNS` entry with
a keyword or pattern hit whose calculated confidence exceeds 50. -/
def detectCoreField (header : Str) (sampleData : List Str) : Option DetectResult :=
  let normalizedHeader := jsTrim (jsLower header)
  fieldPatternEntries.findSome? (fun e =>
    let keywordMatch := e.2.keywords.any (fun kw =>
      jsIncludes normalizedHeader (jsLower kw))
    let patternMatch := e.2.patterns.any (fun p => p normalizedHeader)
    if keywordMatch || patternMatch then
      let confidence := calculateConfidence header sampleData e.1
      if 50 < confidence then
        some { field := e.1, confidence := confidence,
               dataType := detectDataType sampleData, isCustomField := false,
               customFieldConfig := none }
      else none
    else none)

/-- `detectField`: core patterns, then agent email (85), then existing custom
field (75), then the new-custom-field fallback (30). -/
def detectField (contactFields : List ContactField) (users : List User)
    (header : Str) (sampleData : List Str) : DetectResult :=
  match detectCoreField header sampleData with
  | some r => r
  | none =>
    if isAgentEmail users sampleData then
      { field := js "agentUid", confidence := 85, dataType := js "email",
        isCustomField := false, customFieldConfig := none }
    else
      match matchCustomField contactFields header with
      | some (fn, conf, ty) =>
        { field := fn, confidence := conf, dataType := ty, isCustomField := false,
          customFieldConfig := none }
      | none =>
        { field := js "new_custom_field", confidence := 30,
          dataType := detectDataType sampleData, isCustomField := true,
          customFieldConfig := some
            { label := formatFieldLabel header, fieldName := generateFieldName header,
              type := suggestFieldType sampleData, core := false } }

/-- A produced column mapping (`FieldDetectionResult` as built by
`analyzeFileHeaders`). -/
structure ColumnMapping where
  columnName : Str
  suggestedField : Str
  confidence : ℤ
  dataType : Str
  sampleData : List Str
  isCustomField : Bool
  customFieldConfig : Option CustomFieldConfig
deriving DecidableEq

/-- `analyzeFileHeaders`: per column, gather non-blank samples, run
`detectField`, and sort the results by descending confidence. -/
def analyzeFileHeaders (contactFields : List ContactField) (users : List User)
    (headers : List Str) (sampleData : List (List Str)) : List ColumnMapping :=
  let results := (List.range headers.length).map (fun i =>
    let header := headers.getD i []
    let columnData := (sampleData.filterMap (fun row => row.get? i)).filter
      (fun v => jsTruthy v && jsTruthy (jsTrim v))
    let detection := detectField contactFields users header columnData
    { columnName := header, suggestedField := detection.field,
      confidence := detection.confidence, dataType := detection.dataType,
      sampleData := columnData.take 5, isCustomField := detection.isCustomField,
      customFieldConfig := detection.customFieldConfig : ColumnMapping })
  results.mergeSort (fun a b => b.confidence ≤ a.confidence)

/-! ## Import modal step machine (ImportModal.tsx)

The modal's state is its current step and the mapping set.  Events model the
handlers and buttons; a button disabled in the UI is a no-op event.  The two
mapping-review components are mounted only at their own steps, so their
callbacks (`onMappingsChange`, the internal continue button) only fire there. -/

inductive ImportStep
  | upload | detection | mapping | smartMapping | processing | summary
deriving DecidableEq

structure ModalState where
  step : ImportStep
  fieldMappings : List Mapping
deriving DecidableEq

/-- The advance gate: some mapping has a truthy `suggestedField` that is not
the `new_custom_field` sentinel. -/
def hasConcreteField (mappings : List Mapping) : Bool :=
  mappings.any (fun m =>
    jsTruthy m.suggestedField && m.suggestedField != js "new_custom_field")

inductive ModalEvent
  /-- successful `handleFileUpload` -/
  | fileUploaded
  /-- `AIColumnDetectionStep` finishing (`handleAIDetectionComplete`) -/
  | aiDetectionComplete (ms : List Mapping)
  /-- the ungated internal continue button of `FieldMappingStep` -/
  | fieldMappingContinue (ms : List Mapping)
  /-- the footer `Next` button (with its `disabled` guard) -/
  | footerNext
  /-- the footer `Previous` button -/
  | footerPrevious
  /-- `onMappingsChange` from a mounted mapping-review component -/
  | mappingsChanged (ms : List Mapping)
  /-- `handleProcessingComplete` -/
  | processingComplete
  /-- `handleProcessingError` (sets the error banner, step unchanged) -/
  | processingError
  /-- `handleClose` / `resetModal` -/
  | closeModal

def initialModalState : ModalState := ⟨ImportStep.upload, []⟩

/-- The transition function of the modal. -/
def modalStep (s : ModalState) : ModalEvent → ModalState
  | ModalEvent.fileUploaded =>
    if s.step = ImportStep.upload then { s with step := ImportStep.detection } else s
  | ModalEvent.aiDetectionComplete ms =>
    if s.step = ImportStep.detection then ⟨ImportStep.mapping, ms⟩ else s
  | ModalEvent.fieldMappingContinue ms =>
    if s.step = ImportStep.mapping then ⟨ImportStep.smartMapping, ms⟩ else s
  | ModalEvent.footerNext =>
    match s.step with
    | ImportStep.mapping =>
      if hasConcreteField s.fieldMappings then
        { s with step := ImportStep.smartMapping }
      else s
    | ImportStep.smartMapping =>
      if hasConcreteField s.fieldMappings then
        { s with step := ImportStep.processing }
      else s
    | _ => s
  | ModalEvent.footerPrevious =>
    match s.step with
    | ImportStep.detection => { s with step := ImportStep.upload }
    | ImportStep.mapping => { s with step := ImportStep.detection }
    | ImportStep.smartMapping => { s with step := ImportStep.mapping }
    | ImportStep.processing => { s with step := ImportStep.smartMapping }
    | _ => s
  | ModalEvent.mappingsChanged ms =>
    if s.step = ImportStep.mapping ∨ s.step = ImportStep.smartMapping then
      { s with fieldMappings := ms }
    else s
  | ModalEvent.processingComplete =>
    if s.step = ImportStep.processing then { s with step := ImportStep.summary } else s
  | ModalEvent.processingError => s
  | ModalEvent.closeModal => initialModalState

/-- States reachable from a fresh modal. -/
inductive ModalReachable : ModalState → Prop
  | init : ModalReachable initialModalState
  | next {s : ModalState} (e : ModalEvent) :
      ModalReachable s → ModalReachable (modalStep s e)

/-! ## Shared helper definitions and lemmas -/

/-- A row is valid when the built candidate passes validation. -/
def rowValid (headers : List Str) (mappings : List Mapping) (row : List Str) : Bool :=
  (validateContactData (buildContactData headers mappings row)).isEmpty

/-- Read an extra (non-core) field of a stored contact. -/
def extraGet (c : Contact) (k : Str) : Option Str :=
  (c.extra.find? (fun p => p.1 == k)).map (fun p => p.2)

/-- Read any data field of a stored contact by key. -/
def fieldGet (c : Contact) (k : Str) : Option Str :=
  if k == js "firstName" then some c.firstName
  else if k == js "lastName" then some c.lastName
  else if k == js "email" then some c.email
  else if k == js "phone" then some c.phone
  else extraGet c k

theorem jsLower_idem (s : Str) : jsLower (jsLower s) = jsLower s := by
  unfold jsLower
  rw [List.map_map]
  exact List.map_congr_left (fun c _ => lowerCh_idem c)

theorem jsLower_normalizeEmail (s : Str) : jsLower (normalizeEmail s) = normalizeEmail s := by
  unfold normalizeEmail
  rw [← jsTrim_jsLower, jsLower_idem]

/-- `find?` commutes with a filter by a weaker predicate. -/
theorem find?_filter_of_imp {α : Type} (l : List α) (p q : α → Bool)
    (h : ∀ x, p x = true → q x = true) : (l.filter q).find? p = l.find? p := by
  induction l with
  | nil => rfl
  | cons a l ih =>
    cases hq : q a with
    | true =>
      cases hp : p a with
      | true =>
        have hfil : List.filter q (a :: l) = a :: List.filter q l := by
          simp [List.filter_cons, hq]
        rw [hfil, List.find?_cons_of_pos _ hp, List.find?_cons_of_pos _ hp]
      | false =>
        have hfil : List.filter q (a :: l) = a :: List.filter q l := by
          simp [List.filter_cons, hq]
        rw [hfil, List.find?_cons_of_neg _ (by simp [hp]),
          List.find?_cons_of_neg _ (by simp [hp]), ih]
    | false =>
      have hp : p a = false := by
        cases hpa : p a with
        | false => rfl
        | true => rw [h a hpa] at hq; cases hq
      have hfil : List.filter q (a :: l) = List.filter q l := by
        simp [List.filter_cons, hq]
      rw [hfil, ih, List.find?_cons_of_neg _ (by simp [hp])]

/-- Membership search inside `searchContacts` results, as a plain existential. -/
theorem searchContacts_find_isSome (store : List Contact) (term : Str)
    (p : Contact → Bool) :
    ((searchContacts store term).find? p).isSome =
      store.any (fun c => searchRowMatch (jsLower term) c && p c) := by
  unfold searchContacts
  cases h : ((store.filter (searchRowMatch (jsLower term))).find? p).isSome with
  | true =>
    rw [List.find?_isSome] at h
    obtain ⟨c, hc, hpc⟩ := h
    rw [List.mem_filter] at hc
    symm
    rw [List.any_eq_true]
    exact ⟨c, hc.1, by simp [hc.2, hpc]⟩
  | false =>
    symm
    rw [Bool.eq_false_iff] at h ⊢
    intro hany
    apply h
    rw [List.any_eq_true] at hany
    obtain ⟨c, hc, hmatch⟩ := hany
    rw [Bool.and_eq_true] at hmatch
    rw [List.find?_isSome]
    exact ⟨c, List.mem_filter.mpr ⟨hc, hmatch.1⟩, hmatch.2⟩

/-! ## C5: parsed table shape -/

/-- C5 (corrected; counterexample): the claim says every successfully parsed
table satisfies `headers.length == rows[i].length` with short rows padded.
For the well-formed raw CSV `[["a","b"],["x"]]` the parse succeeds, headers
keep both cells, and the single data row passes through unpadded with one
cell, so the invariant fails. -/
theorem c5_counterexample :
    parseCSV [[js "a", js "b"], [js "x"]] none true =
      Except.ok ⟨[js "a", js "b"], [[js "x"]], 1⟩ ∧
    ¬ (∀ row ∈ [[js "x"]], row.length = [js "a", js "b"].length) := by
  constructor
  · rfl
  · intro h
    have := h [js "x"] (by simp)
    simp [js] at this

/-- C5 (amended): a successful parse returns the cleaned first raw row as
headers and passes the data rows through unchanged (truncated only by a
truthy `maxRows`); no padding happens, so the length invariant holds exactly
when the incoming data rows already have as many cells as there are cleaned
headers. -/
theorem c5_amended (raw : List (List Str)) (maxRows : Option Nat)
    (trimWhitespace : Bool) (d : ParsedFileData)
    (h : parseCSV raw maxRows trimWhitespace = Except.ok d) :
    d.headers = cleanHeaders (raw.headD []) trimWhitespace ∧
    d.rows = limitRows maxRows raw.tail ∧
    d.totalRows = d.rows.length ∧
    ((∀ row ∈ raw.tail, row.length = (cleanHeaders (raw.headD []) trimWhitespace).length) →
      ∀ row ∈ d.rows, row.length = d.headers.length) := by
  cases raw with
  | nil => simp [parseCSV] at h
  | cons r0 rest =>
    unfold parseCSV at h
    rw [if_neg (by simp)] at h
    by_cases hhd : r0.isEmpty = true
    · rw [if_pos (by simpa using hhd)] at h
      cases h
    · rw [if_neg (by simpa using hhd)] at h
      rw [Except.ok.injEq] at h
      subst h
      refine ⟨rfl, rfl, rfl, ?_⟩
      intro hall row hrow
      apply hall
      cases maxRows with
      | none => simpa [limitRows] using hrow
      | some n =>
        simp only [limitRows] at hrow
        by_cases hn : n ≠ 0
        · rw [if_pos hn] at hrow
          simpa using List.mem_of_mem_take hrow
        · rw [if_neg hn] at hrow
          simpa using hrow

/-- C5 amended, witness: the concrete parse above instantiates the theorem. -/
theorem c5_amended_witness :
    ([[js "x"]] : List (List Str)) = [[js "x"]] ∧
    (1 : Nat) = [[js "x"]].length := by
  have h := c5_amended [[js "a", js "b"], [js "x"]] none true
    ⟨[js "a", js "b"], [[js "x"]], 1⟩ (by rfl)
  exact ⟨h.2.1, h.2.2.1⟩

/-! ## C6: data-type detection chain -/

/-- C6 (corrected; counterexample): the claim says the column
`["1","2","3"]` yields `number`; the code classifies it as `phone`, because
the first alternative of the phone regex accepts any 1–16 digit string with a
non-zero leading digit. -/
theorem c6_counterexample :
    detectDataType [js "1", js "2", js "3"] = js "phone" ∧
    detectDataType [js "1", js "2", js "3"] ≠ js "number" := by
  constructor
  · rfl
  · intro h
    simp [js] at h
    revert h
    decide

/-- C6 (amended): the detector takes the first clause of the chain
email → phone → datetime → number → checkbox → text in which every one of the
first 10 samples matches, where the phone clause uses the repository's phone
regex on the separator-stripped value (which accepts short all-digit strings
such as `"1"`); an empty sample set yields `text`. -/
theorem c6_amended (samples : List Str) (hne : samples ≠ []) :
    detectDataType [] = js "text" ∧
    ((samples.take 10).all emailRegexTest = true →
      detectDataType samples = js "email") ∧
    ((samples.take 10).all emailRegexTest = false →
     (samples.take 10).all (fun v => phoneRegexTest (stripPhoneSeps v)) = true →
      detectDataType samples = js "phone") ∧
    ((samples.take 10).all emailRegexTest = false →
     (samples.take 10).all (fun v => phoneRegexTest (stripPhoneSeps v)) = false →
     (samples.take 10).all dateRegexTest = true →
      detectDataType samples = js "datetime") ∧
    ((samples.take 10).all emailRegexTest = false →
     (samples.take 10).all (fun v => phoneRegexTest (stripPhoneSeps v)) = false →
     (samples.take 10).all dateRegexTest = false →
     (samples.take 10).all numberRegexTest = true →
      detectDataType samples = js "number") ∧
    ((samples.take 10).all emailRegexTest = false →
     (samples.take 10).all (fun v => phoneRegexTest (stripPhoneSeps v)) = false →
     (samples.take 10).all dateRegexTest = false →
     (samples.take 10).all numberRegexTest = false →
     (samples.take 10).all booleanRegexTest = true →
      detectDataType samples = js "checkbox") ∧
    ((samples.take 10).all emailRegexTest = false →
     (samples.take 10).all (fun v => phoneRegexTest (stripPhoneSeps v)) = false →
     (samples.take 10).all dateRegexTest = false →
     (samples.take 10).all numberRegexTest = false →
     (samples.take 10).all booleanRegexTest = false →
      detectDataType samples = js "text") := by
  have hU : detectDataType samples =
      (if (samples.take 10).all emailRegexTest then js "email"
       else if (samples.take 10).all (fun v => phoneRegexTest (stripPhoneSeps v)) then
         js "phone"
       else if (samples.take 10).all dateRegexTest then js "datetime"
       else if (samples.take 10).all numberRegexTest then js "number"
       else if (samples.take 10).all booleanRegexTest then js "checkbox"
       else js "text") := by
    unfold detectDataType
    rw [if_neg (by simpa [List.isEmpty_iff] using hne)]
  refine ⟨rfl, ?_, ?_, ?_, ?_, ?_, ?_⟩
  · intro h1
    rw [hU, if_pos h1]
  · intro h1 h2
    rw [hU, if_neg (by simp [h1]), if_pos h2]
  · intro h1 h2 h3
    rw [hU, if_neg (by simp [h1]), if_neg (by simp [h2]), if_pos h3]
  · intro h1 h2 h3 h4
    rw [hU, if_neg (by simp [h1]), if_neg (by simp [h2]), if_neg (by simp [h3]),
      if_pos h4]
  · intro h1 h2 h3 h4 h5
    rw [hU, if_neg (by simp [h1]), if_neg (by simp [h2]), if_neg (by simp [h3]),
      if_neg (by simp [h4]), if_pos h5]
  · intro h1 h2 h3 h4 h5
    rw [hU, if_neg (by simp [h1]), if_neg (by simp [h2]), if_neg (by simp [h3]),
      if_neg (by simp [h4]), if_neg (by simp [h5])]

/-- C6 amended, witness: the boolean column `["yes","no"]` reaches the
checkbox clause. -/
theorem c6_amended_witness :
    detectDataType [js "yes", js "no"] = js "checkbox" := by
  have h := c6_amended [js "yes", js "no"] (by simp [js])
  exact h.2.2.2.2.2.1 (by decide) (by decide) (by decide) (by decide) (by decide)

/-! ## C7: inference confidence range -/

theorem keywordScore_nonneg (keywords : List Str) (header : Str) :
    0 ≤ keywordScore keywords header := by
  unfold keywordScore
  suffices h : ∀ (l : List Str) (q : ℚ), q ≤ l.foldl (fun score kw =>
      if jsIncludes (jsLower header) (jsLower kw) then
        score + ((kw.length : ℚ) / (header.length : ℚ)) * 100
      else score) q by
    exact h keywords 0
  intro l
  induction l with
  | nil => intro q; simp
  | cons kw l ih =>
    intro q
    refine le_trans ?_ (ih _)
    by_cases hkw : jsIncludes (jsLower header) (jsLower kw) = true
    · simp only [List.foldl_cons, hkw, if_true]
      have : (0 : ℚ) ≤ ((kw.length : ℚ) / (header.length : ℚ)) * 100 :=
        mul_nonneg (div_nonneg (Nat.cast_nonneg _) (Nat.cast_nonneg _)) (by norm_num)
      linarith
    · simp [hkw]

theorem getDataPatternScore_nonneg (sampleData : List Str) (fieldName : Str) :
    0 ≤ getDataPatternScore sampleData fieldName := by
  unfold getDataPatternScore
  split
  · exact le_refl 0
  · exact mul_nonneg (div_nonneg (Nat.cast_nonneg _) (Nat.cast_nonneg _)) (by norm_num)

theorem calculateConfidence_nonneg (header : Str) (sampleData : List Str)
    (fieldName : Str) : 0 ≤ calculateConfidence header sampleData fieldName := by
  unfold calculateConfidence
  have hbase : (0 : ℚ) ≤
      (match (fieldPatternEntries.find? (fun e => e.1 == fieldName)).map
          (fun e => e.2) with
        | some config =>
          max (keywordScore config.keywords header)
            (if config.patterns.any (fun p => p header) then (80 : ℚ) else 0) * (2 / 5)
        | none => 0) := by
    split
    · refine mul_nonneg (le_trans (keywordScore_nonneg _ _) (le_max_left _ _)) (by norm_num)
    · exact le_refl 0
  have hdata : (0 : ℚ) ≤ getDataPatternScore sampleData fieldName * (3 / 5) :=
    mul_nonneg (getDataPatternScore_nonneg _ _) (by norm_num)
  have htotal : ∀ q : ℚ, 0 ≤ q → 0 ≤ jsRound q := by
    intro q hq
    unfold jsRound
    rw [Int.le_floor]
    push_cast
    linarith
  refine le_min (htotal _ ?_) (by norm_num)
  split
  · linarith
  · linarith

theorem calculateConfidence_le (header : Str) (sampleData : List Str)
    (fieldName : Str) : calculateConfidence header sampleData fieldName ≤ 100 := by
  unfold calculateConfidence
  exact min_le_right _ _

theorem detectField_confidence_range (contactFields : List ContactField)
    (users : List User) (header : Str) (sampleData : List Str) :
    0 ≤ (detectField contactFields users header sampleData).confidence ∧
    (detectField contactFields users header sampleData).confidence ≤ 100 := by
  unfold detectField
  cases hcore : detectCoreField header sampleData with
  | some r =>
    unfold detectCoreField at hcore
    obtain ⟨e, hmem, hfe⟩ := List.exists_of_findSome?_eq_some hcore
    by_cases hhit : (e.2.keywords.any (fun kw =>
        jsIncludes (jsTrim (jsLower header)) (jsLower kw)) ||
        e.2.patterns.any (fun p => p (jsTrim (jsLower header)))) = true
    · rw [if_pos hhit] at hfe
      by_cases hconf : 50 < calculateConfidence header sampleData e.1
      · rw [if_pos hconf] at hfe
        have hr : r.confidence = calculateConfidence header sampleData e.1 := by
          cases hfe; rfl
        rw [hr]
        exact ⟨calculateConfidence_nonneg _ _ _, calculateConfidence_le _ _ _⟩
      · rw [if_neg hconf] at hfe
        cases hfe
    · rw [if_neg hhit] at hfe
      cases hfe
  | none =>
    by_cases hagent : isAgentEmail users sampleData = true
    · simp only [hagent, if_true]
      norm_num
    · simp only [hagent, Bool.false_eq_true, if_false]
      cases hcust : matchCustomField contactFields header with
      | some t =>
        obtain ⟨fn, conf, ty⟩ := t
        unfold matchCustomField at hcust
        obtain ⟨f, hfmem, hff⟩ := List.exists_of_findSome?_eq_some hcust
        have hconf : conf = 75 := by
          by_cases hcore2 : f.core = true
          · rw [if_pos hcore2] at hff; cases hff
          · rw [if_neg hcore2] at hff
            by_cases hlbl : (jsIncludes (jsLower f.label) (jsLower header) ||
                jsIncludes (jsLower header) (jsLower f.label)) = true
            · rw [if_pos hlbl] at hff
              cases hff; rfl
            · rw [if_neg hlbl] at hff; cases hff
        subst hconf
        norm_num
      | none =>
        norm_num

/-- C7 (confirmed): every column mapping produced by `analyzeFileHeaders`
carries a confidence in `[0, 100]`; the value is an integer by construction
(`Math.round` and the literal rule scores are modelled in `ℤ`). -/
theorem c7_confidence_range (contactFields : List ContactField) (users : List User)
    (headers : List Str) (sampleData : List (List Str)) :
    ∀ r ∈ analyzeFileHeaders contactFields users headers sampleData,
      0 ≤ r.confidence ∧ r.confidence ≤ 100 := by
  intro r hr
  unfold analyzeFileHeaders at hr
  rw [List.mem_mergeSort] at hr
  obtain ⟨i, hi, heq⟩ := List.mem_map.mp hr
  have : r.confidence = (detectField contactFields users (headers.getD i [])
      ((sampleData.filterMap (fun row => row.get? i)).filter
        (fun v => jsTruthy v && jsTruthy (jsTrim v)))).confidence := by
    rw [← heq]
  rw [this]
  exact detectField_confidence_range _ _ _ _

/-- C7 witness: a concrete unmapped header column (new-custom-field rule, 30)
instantiates the range theorem. -/
theorem c7_confidence_range_witness :
    0 ≤ (ColumnMapping.mk (js "zzz") (js "new_custom_field") 30 (js "text") [] true
      (some ⟨js "Zzz", js "zzz", js "text", false⟩)).confidence ∧
    (ColumnMapping.mk (js "zzz") (js "new_custom_field") 30 (js "text") [] true
      (some ⟨js "Zzz", js "zzz", js "text", false⟩)).confidence ≤ 100 := by
  have h := c7_confidence_range [] [] [js "zzz"] []
  exact h (ColumnMapping.mk (js "zzz") (js "new_custom_field") 30 (js "text") [] true
    (some ⟨js "Zzz", js "zzz", js "text", false⟩)) (List.mem_mergeSort.mpr (by decide))

/-! ## C8: entering the processing step requires a concrete mapping -/

/-- Any transition that lands on the processing step keeps the mapping set and
either was already at processing or passed the concrete-field gate. -/
theorem modalStep_into_processing (s : ModalState) (e : ModalEvent)
    (hp : (modalStep s e).step = ImportStep.processing) :
    (modalStep s e).fieldMappings = s.fieldMappings ∧
    (s.step = ImportStep.processing ∨ hasConcreteField s.fieldMappings = true) := by
  obtain ⟨st, fm⟩ := s
  cases e <;> cases st <;>
    (try simp only [modalStep] at hp ⊢) <;>
    first
    | (split at hp <;> simp_all [initialModalState])
    | simp_all [initialModalState]

/-- C8 (confirmed): in every reachable modal state sitting at the processing
step, some mapping has a truthy `suggestedField` different from the
`new_custom_field` sentinel — the only transition into processing is the
footer advance out of the mapping-review steps, and it is disabled until the
gate holds. -/
theorem c8_processing_entry_gate (s : ModalState) (hr : ModalReachable s)
    (hp : s.step = ImportStep.processing) :
    hasConcreteField s.fieldMappings = true := by
  revert hp
  induction hr with
  | init => intro hp; exact absurd hp (by decide)
  | @next s e hprev ih =>
    intro hp
    obtain ⟨hfm, hor⟩ := modalStep_into_processing s e hp
    rw [hfm]
    rcases hor with h | h
    · exact ih h
    · exact h

/-! ## State-threaded counting pass (for the frame claim)

`startProcessing` only ever reads the store (via `searchContacts` inside
`checkForDuplicates`); the threaded versions pass the store through every
call so its preservation is a provable statement. -/

/-- `searchContacts` as a store-reading operation. -/
def searchContactsS (term : Str) (store : List Contact) : List Contact × List Contact :=
  (searchContacts store term, store)

/-- `checkForDuplicates` with the store threaded through its three queries. -/
def checkForDuplicatesS (cd : ContactData) (store0 : List Contact) :
    DupResult × List Contact :=
  let email := if jsTruthyO (cdGet cd (js "email")) then
      normalizeEmail ((cdGet cd (js "email")).getD []) else []
  let phone := if jsTruthyO (cdGet cd (js "phone")) then
      normalizePhone ((cdGet cd (js "phone")).getD []) else []
  let firstName := jsTrim (jsLower ((cdGet cd (js "firstName")).getD []))
  let lastName := jsTrim (jsLower ((cdGet cd (js "lastName")).getD []))
  let r1 := if jsTruthy email then searchContactsS email store0 else ([], store0)
  match r1.1.find? (fun c => normalizeEmail c.email == email) with
  | some c => (⟨true, some c, 100⟩, r1.2)
  | none =>
    let r2 := if jsTruthy phone then searchContactsS phone r1.2 else ([], r1.2)
    match r2.1.find? (fun c => normalizePhone c.phone == phone) with
    | some c => (⟨true, some c, 95⟩, r2.2)
    | none =>
      let r3 := if jsTruthy firstName && jsTruthy lastName then
          searchContactsS (firstName ++ js " " ++ lastName) r2.2 else ([], r2.2)
      match r3.1.find? (fun c =>
          jsTrim (jsLower c.firstName) == firstName &&
          jsTrim (jsLower c.lastName) == lastName) with
      | some c => (⟨true, some c, 70⟩, r3.2)
      | none => (⟨false, none, 0⟩, r3.2)

/-- One iteration of the counting loop, store threaded. -/
def countRowStepS (headers : List Str) (mappings : List Mapping)
    (ri : ProcessingResults × List Contact) (i : Nat) (row : List Str) :
    ProcessingResults × List Contact :=
  let cd := buildContactData headers mappings row
  let errs := validateContactData cd
  if !errs.isEmpty then
    ({ ri.1 with
        errors := ri.1.errors + 1
        errorDetails := ri.1.errorDetails ++ [rowErrorMsg i errs] }, ri.2)
  else
    let dr := checkForDuplicatesS cd ri.2
    if dr.1.isDuplicate then ({ ri.1 with merged := ri.1.merged + 1 }, dr.2)
    else ({ ri.1 with imported := ri.1.imported + 1 }, dr.2)

/-- The counting pass, store threaded. -/
def startProcessingS (headers : List Str) (mappings : List Mapping)
    (rows : List (List Str)) (store : List Contact) :
    ProcessingResults × List Contact :=
  rows.enum.foldl (fun ri p => countRowStepS headers mappings ri p.1 p.2)
    (⟨0, 0, 0, []⟩, store)

/-! ## C2: validation rules, error accounting, and row skipping -/

/-- Classification helper: the duplicate decision a row receives. -/
def rowDup (store : List Contact) (headers : List Str) (mappings : List Mapping)
    (row : List Str) : Bool :=
  (checkForDuplicates store (buildContactData headers mappings row)).isDuplicate

theorem validateContactData_ne_nil_iff (cd : ContactData) :
    validateContactData cd ≠ [] ↔
      (presentNonBlank (cdGet cd (js "firstName")) = false ∨
       presentNonBlank (cdGet cd (js "lastName")) = false ∨
       presentNonBlank (cdGet cd (js "email")) = false ∨
       presentNonBlank (cdGet cd (js "phone")) = false ∨
       (jsTruthyO (cdGet cd (js "email")) = true ∧
         validateEmail ((cdGet cd (js "email")).getD []) = false) ∨
       (jsTruthyO (cdGet cd (js "phone")) = true ∧
         validatePhone ((cdGet cd (js "phone")).getD []) = false)) := by
  unfold validateContactData
  cases h1 : presentNonBlank (cdGet cd (js "firstName")) <;>
    cases h2 : presentNonBlank (cdGet cd (js "lastName")) <;>
    cases h3 : presentNonBlank (cdGet cd (js "email")) <;>
    cases h4 : presentNonBlank (cdGet cd (js "phone")) <;>
    cases h5 : jsTruthyO (cdGet cd (js "email")) <;>
    cases h6 : jsTruthyO (cdGet cd (js "phone")) <;>
    cases h7 : validateEmail ((cdGet cd (js "email")).getD []) <;>
    cases h8 : validatePhone ((cdGet cd (js "phone")).getD []) <;>
    simp [h1, h2, h3, h4, h5, h6, h7, h8, js]

/-- The counting fold, characterised: each row adds to exactly one bucket. -/
theorem countFold_eq (store : List Contact) (headers : List Str)
    (mappings : List Mapping) :
    ∀ (l : List (Nat × List Str)) (r : ProcessingResults),
      l.foldl (fun r p => countRowStep store headers mappings r p.1 p.2) r =
        ⟨r.imported + l.countP (fun p =>
            rowValid headers mappings p.2 && !rowDup store headers mappings p.2),
         r.merged + l.countP (fun p =>
            rowValid headers mappings p.2 && rowDup store headers mappings p.2),
         r.errors + l.countP (fun p => !rowValid headers mappings p.2),
         r.errorDetails ++ l.filterMap (fun p =>
           if rowValid headers mappings p.2 then none
           else some (rowErrorMsg p.1
             (validateContactData (buildContactData headers mappings p.2))))⟩ := by
  intro l
  induction l with
  | nil => intro r; simp
  | cons a l ih =>
    intro r
    rw [List.foldl_cons, ih]
    unfold countRowStep rowValid rowDup
    cases hve : validateContactData (buildContactData headers mappings a.2) <;>
      cases hd : (checkForDuplicates store
        (buildContactData headers mappings a.2)).isDuplicate <;>
      simp [hve, hd, List.countP_cons, rowValid, rowDup, List.filterMap_cons,
        ProcessingResults.mk.injEq] <;>
      omega

theorem countP_enumFrom {α : Type} (f : α → Bool) :
    ∀ (n : Nat) (l : List α),
      (List.enumFrom n l).countP (fun p => f p.2) = l.countP f := by
  intro n l
  induction l generalizing n with
  | nil => rfl
  | cons a l ih => simp [List.enumFrom, List.countP_cons, ih]

theorem countP_split {α : Type} (f g : α → Bool) :
    ∀ l : List α,
      l.countP (fun x => f x && !g x) + l.countP (fun x => f x && g x) =
        l.countP f := by
  intro l
  induction l with
  | nil => rfl
  | cons a l ih =>
    cases hf : f a <;> cases hg : g a <;>
      simp [List.countP_cons, hf, hg] <;> omega

/-- An invalid row is skipped whole by the save loop. -/
theorem saveRowStep_invalid (headers : List Str) (mappings : List Mapping)
    (now : Nat) (st : SaveState) (row : List Str)
    (hrow : rowValid headers mappings row = false) :
    saveRowStep headers mappings now st row = st := by
  unfold rowValid at hrow
  unfold saveRowStep
  simp [hrow]

/-- C2 (confirmed): a built candidate fails validation exactly when a required
field is missing/blank, a present email fails the syntactic shape, or a
present phone has fewer than 10 digits; every failing row contributes one
`Row ${i+2}: ...` message joining all violated rules, is counted under
`errors` and under neither `imported` nor `merged`, and the save pass leaves
the store untouched for it. -/
theorem c2_validation_pipeline (store : List Contact) (headers : List Str)
    (mappings : List Mapping) (rows : List (List Str)) :
    (∀ cd : ContactData, validateContactData cd ≠ [] ↔
      (presentNonBlank (cdGet cd (js "firstName")) = false ∨
       presentNonBlank (cdGet cd (js "lastName")) = false ∨
       presentNonBlank (cdGet cd (js "email")) = false ∨
       presentNonBlank (cdGet cd (js "phone")) = false ∨
       (jsTruthyO (cdGet cd (js "email")) = true ∧
         validateEmail ((cdGet cd (js "email")).getD []) = false) ∨
       (jsTruthyO (cdGet cd (js "phone")) = true ∧
         validatePhone ((cdGet cd (js "phone")).getD []) = false))) ∧
    (startProcessing store headers mappings rows).errors =
      rows.countP (fun row => !rowValid headers mappings row) ∧
    (startProcessing store headers mappings rows).errorDetails =
      rows.enum.filterMap (fun p =>
        if rowValid headers mappings p.2 then none
        else some (rowErrorMsg p.1
          (validateContactData (buildContactData headers mappings p.2)))) ∧
    (startProcessing store headers mappings rows).imported +
        (startProcessing store headers mappings rows).merged =
      rows.countP (fun row => rowValid headers mappings row) ∧
    (∀ now st row, rowValid headers mappings row = false →
      saveRowStep headers mappings now st row = st) := by
  refine ⟨validateContactData_ne_nil_iff, ?_, ?_, ?_, ?_⟩
  · unfold startProcessing
    rw [countFold_eq]
    show 0 + _ = _
    rw [Nat.zero_add]
    exact countP_enumFrom (fun row => !rowValid headers mappings row) 0 rows
  · unfold startProcessing
    rw [countFold_eq]
    rfl
  · unfold startProcessing
    rw [countFold_eq]
    show (0 + _) + (0 + _) = _
    rw [Nat.zero_add, Nat.zero_add]
    have h1 := countP_enumFrom
      (fun row => rowValid headers mappings row && !rowDup store headers mappings row) 0 rows
    have h2 := countP_enumFrom
      (fun row => rowValid headers mappings row && rowDup store headers mappings row) 0 rows
    have h3 := countP_split (fun row => rowValid headers mappings row)
      (fun row => rowDup store headers mappings row) rows
    have he : rows.enum = List.enumFrom 0 rows := rfl
    rw [he, h1, h2, h3]
  · intro now st row hrow
    exact saveRowStep_invalid headers mappings now st row hrow

/-- C2 witness: a concrete one-row table whose row misses the phone field. -/
theorem c2_validation_pipeline_witness :
    validateContactData [(js "firstName", js "Jo")] ≠ [] ∧
    (startProcessing [] [js "first"] [⟨js "first", js "firstName", 90, js "text", [], false⟩]
      [[js "Jo"]]).errors = 1 := by
  have h := c2_validation_pipeline [] [js "first"]
    [⟨js "first", js "firstName", 90, js "text", [], false⟩] [[js "Jo"]]
  constructor
  · exact (h.1 [(js "firstName", js "Jo")]).mpr (by decide)
  · rw [h.2.1]
    decide

theorem checkForDuplicatesS_eq (cd : ContactData) (store : List Contact) :
    checkForDuplicatesS cd store = (checkForDuplicates store cd, store) := by
  simp only [checkForDuplicatesS, checkForDuplicates, searchContactsS]
  generalize (if jsTruthyO (cdGet cd (js "email")) = true then
      normalizeEmail ((cdGet cd (js "email")).getD []) else ([] : Str)) = e
  generalize (if jsTruthyO (cdGet cd (js "phone")) = true then
      normalizePhone ((cdGet cd (js "phone")).getD []) else ([] : Str)) = ph
  generalize jsTrim (jsLower ((cdGet cd (js "firstName")).getD [])) = fn
  generalize jsTrim (jsLower ((cdGet cd (js "lastName")).getD [])) = ln
  have hr1 : (if jsTruthy e = true then (searchContacts store e, store)
      else ([], store)).2 = store := by
    by_cases h : jsTruthy e = true <;> simp [h]
  rw [hr1]
  have hs1 : (if jsTruthy e = true then (searchContacts store e, store)
      else ([], store)).1.find? (fun c => normalizeEmail c.email == e) =
      (if jsTruthy e = true then
        (searchContacts store e).find? (fun c => normalizeEmail c.email == e)
      else none) := by
    by_cases h : jsTruthy e = true <;> simp [h]
  rw [hs1]
  cases hm1 : (if jsTruthy e = true then
      (searchContacts store e).find? (fun c => normalizeEmail c.email == e)
    else none) with
  | some c => rfl
  | none =>
    have hr2 : (if jsTruthy ph = true then (searchContacts store ph, store)
        else ([], store)).2 = store := by
      by_cases h : jsTruthy ph = true <;> simp [h]
    rw [hr2]
    have hs2 : (if jsTruthy ph = true then (searchContacts store ph, store)
        else ([], store)).1.find? (fun c => normalizePhone c.phone == ph) =
        (if jsTruthy ph = true then
          (searchContacts store ph).find? (fun c => normalizePhone c.phone == ph)
        else none) := by
      by_cases h : jsTruthy ph = true <;> simp [h]
    rw [hs2]
    cases hm2 : (if jsTruthy ph = true then
        (searchContacts store ph).find? (fun c => normalizePhone c.phone == ph)
      else none) with
    | some c => rfl
    | none =>
      have hr3 : (if (jsTruthy fn && jsTruthy ln) = true then
          (searchContacts store (fn ++ js " " ++ ln), store)
          else ([], store)).2 = store := by
        by_cases h : (jsTruthy fn && jsTruthy ln) = true <;> simp [h]
      rw [hr3]
      have hs3 : (if (jsTruthy fn && jsTruthy ln) = true then
          (searchContacts store (fn ++ js " " ++ ln), store)
          else ([], store)).1.find? (fun c =>
            jsTrim (jsLower c.firstName) == fn && jsTrim (jsLower c.lastName) == ln) =
          (if (jsTruthy fn && jsTruthy ln) = true then
            (searchContacts store (fn ++ js " " ++ ln)).find? (fun c =>
              jsTrim (jsLower c.firstName) == fn && jsTrim (jsLower c.lastName) == ln)
          else none) := by
        by_cases h : (jsTruthy fn && jsTruthy ln) = true <;> simp [h]
      rw [hs3]
      cases hm3 : (if (jsTruthy fn && jsTruthy ln) = true then
          (searchContacts store (fn ++ js " " ++ ln)).find? (fun c =>
            jsTrim (jsLower c.firstName) == fn && jsTrim (jsLower c.lastName) == ln)
        else none) with
      | some c => rfl
      | none => rfl

theorem countRowStepS_eq (headers : List Str) (mappings : List Mapping)
    (r : ProcessingResults) (store : List Contact) (i : Nat) (row : List Str) :
    countRowStepS headers mappings (r, store) i row =
      (countRowStep store headers mappings r i row, store) := by
  unfold countRowStepS countRowStep
  by_cases hv : (validateContactData (buildContactData headers mappings row)).isEmpty = true
  · simp only [hv, Bool.not_true, Bool.false_eq_true, if_false]
    rw [checkForDuplicatesS_eq]
    by_cases hd : (checkForDuplicates store
        (buildContactData headers mappings row)).isDuplicate = true <;>
      simp [hd]
  · simp only [Bool.not_eq_true] at hv
    simp [hv]

theorem startProcessingS_eq (headers : List Str) (mappings : List Mapping)
    (rows : List (List Str)) (store : List Contact) :
    startProcessingS headers mappings rows store =
      (startProcessing store headers mappings rows, store) := by
  unfold startProcessingS startProcessing
  suffices h : ∀ (l : List (Nat × List Str)) (r : ProcessingResults),
      l.foldl (fun ri p => countRowStepS headers mappings ri p.1 p.2) (r, store) =
        (l.foldl (fun r p => countRowStep store headers mappings r p.1 p.2) r, store) by
    exact h rows.enum ⟨0, 0, 0, []⟩
  intro l
  induction l with
  | nil => intro r; rfl
  | cons a l ih =>
    intro r
    rw [List.foldl_cons, List.foldl_cons, countRowStepS_eq, ih]

/-! ## C10: the counting pass writes nothing; the save pass is gated -/

/-- C10 (confirmed): the counting pass that produces the displayed outcome
leaves the store untouched; the separate save operation refuses to run when
the counting pass recorded errors; when it does run its reported outcome has
`errors` fixed at 0 with no detail list; and rows failing validation are
silently skipped by the save loop. -/
theorem c10_frame_and_gate (store : List Contact) (nextId : Nat)
    (headers : List Str) (mappings : List Mapping) (rows : List (List Str))
    (priorErrors now : Nat) :
    startProcessingS headers mappings rows store =
      (startProcessing store headers mappings rows, store) ∧
    (0 < priorErrors →
      handleMoveToContacts store nextId headers mappings rows priorErrors now = none) ∧
    (∀ st out,
      handleMoveToContacts store nextId headers mappings rows priorErrors now =
        some (st, out) → out.errors = 0 ∧ out.errorDetails = []) ∧
    (∀ st row, rowValid headers mappings row = false →
      saveRowStep headers mappings now st row = st) := by
  refine ⟨startProcessingS_eq _ _ _ _, ?_, ?_, ?_⟩
  · intro hp
    unfold handleMoveToContacts
    rw [if_pos (by simp [hp])]
  · intro st out hsome
    unfold handleMoveToContacts at hsome
    by_cases hg : (mappings.isEmpty || decide (0 < priorErrors)) = true
    · rw [if_pos hg] at hsome
      cases hsome
    · rw [if_neg hg] at hsome
      rw [Option.some.injEq, Prod.mk.injEq] at hsome
      rw [← hsome.2]
      exact ⟨rfl, rfl⟩
  · intro st row h
    exact saveRowStep_invalid headers mappings now st row h

/-- C10 witness: a concrete run with one prior error refuses to save, and a
clean run reports an outcome with zero errors. -/
theorem c10_frame_and_gate_witness :
    handleMoveToContacts [] 0 [js "first"]
      [⟨js "first", js "firstName", 90, js "text", [], false⟩] [[js "Jo"]] 1 7 = none := by
  have h := c10_frame_and_gate [] 0 [js "first"]
    [⟨js "first", js "firstName", 90, js "text", [], false⟩] [[js "Jo"]] 1 7
  exact h.2.1 (by decide)

/-! ## C4: store failures during reconciliation -/

theorem checkForDuplicatesE_searchErr (s : FaultyStore) (hs : s.searchErr = true)
    (cd : ContactData) : checkForDuplicatesE s cd = ⟨false, none, 0⟩ := by
  simp only [checkForDuplicatesE, checkForDuplicatesBody, searchContactsE]
  rw [if_pos hs, if_pos hs, if_pos hs]
  by_cases hg1 : jsTruthy (if jsTruthyO (cdGet cd (js "email")) = true then
      normalizeEmail ((cdGet cd (js "email")).getD []) else []) = true
  · rw [if_pos hg1]
    rfl
  · rw [if_neg hg1]
    by_cases hg2 : jsTruthy (if jsTruthyO (cdGet cd (js "phone")) = true then
        normalizePhone ((cdGet cd (js "phone")).getD []) else []) = true
    · rw [if_pos hg2]
      rfl
    · rw [if_neg hg2]
      by_cases hg3 : (jsTruthy (jsTrim (jsLower ((cdGet cd (js "firstName")).getD []))) &&
          jsTruthy (jsTrim (jsLower ((cdGet cd (js "lastName")).getD [])))) = true
      · rw [if_pos hg3]
        rfl
      · rw [if_neg hg3]
        rfl

theorem saveRowStepE_ok_flags (headers : List Str) (mappings : List Mapping)
    (now : Nat) (st st2 : FaultyStore × Nat × Nat) (row : List Str)
    (h : saveRowStepE headers mappings now st row = Except.ok st2) :
    st2.1.writeErr = st.1.writeErr := by
  simp only [saveRowStepE] at h
  split at h
  · cases h; rfl
  · split at h
    · simp only [updateContactE] at h
      split at h
      · simp [Except.map] at h
      · simp only [Except.map] at h
        cases h; rfl
    · simp only [createContactE] at h
      split at h
      · simp [Except.map] at h
      · simp only [Except.map] at h
        cases h; rfl

theorem saveRunE_error_iff (headers : List Str) (mappings : List Mapping) (now : Nat) :
    ∀ (rows : List (List Str)) (st : FaultyStore × Nat × Nat),
      (∃ e, rows.foldlM (saveRowStepE headers mappings now) st = Except.error e) ↔
        (st.1.writeErr = true ∧ ∃ row ∈ rows, rowValid headers mappings row = true) := by
  intro rows
  induction rows with
  | nil =>
    intro st
    simp only [List.foldlM_nil]
    constructor
    · rintro ⟨e, he⟩
      cases he
    · rintro ⟨-, row, hmem, -⟩
      cases hmem
  | cons a rows ih =>
    intro st
    rw [List.foldlM_cons]
    by_cases hv : rowValid headers mappings a = true
    · constructor
      · rintro ⟨e, he⟩
        cases hstep : saveRowStepE headers mappings now st a with
        | error e2 =>
          refine ⟨?_, a, by simp, hv⟩
          unfold rowValid at hv
          simp only [saveRowStepE] at hstep
          rw [if_neg (by simp [hv])] at hstep
          split at hstep
          · simp only [updateContactE] at hstep
            by_cases hw : st.1.writeErr = true
            · exact hw
            · rw [if_neg (by simp [hw])] at hstep
              simp [Except.map] at hstep
          · simp only [createContactE] at hstep
            by_cases hw : st.1.writeErr = true
            · exact hw
            · rw [if_neg (by simp [hw])] at hstep
              simp [Except.map] at hstep
        | ok st2 =>
          rw [hstep] at he
          have he2 : List.foldlM (saveRowStepE headers mappings now) st2 rows =
              Except.error e := he
          have hrec := (ih st2).mp ⟨e, he2⟩
          rw [saveRowStepE_ok_flags headers mappings now st st2 a hstep] at hrec
          exact ⟨hrec.1, a, by simp, hv⟩
      · rintro ⟨hw, -⟩
        unfold rowValid at hv
        have hne : (validateContactData (buildContactData headers mappings a)).isEmpty = true := hv
        refine ⟨js "storage write failed", ?_⟩
        have hstep : saveRowStepE headers mappings now st a =
            Except.error (js "storage write failed") := by
          simp only [saveRowStepE]
          rw [if_neg (by simp [hne])]
          split
          · simp only [updateContactE]
            rw [if_pos (by simp [hw])]
            rfl
          · simp only [createContactE]
            rw [if_pos (by simp [hw])]
            rfl
        rw [hstep]
        rfl
    · have hstep : saveRowStepE headers mappings now st a = Except.ok st := by
        unfold rowValid at hv
        simp only [saveRowStepE]
        rw [if_pos (by simp only [Bool.not_eq_true] at hv; simp [hv])]
      rw [hstep]
      show (∃ e, List.foldlM (saveRowStepE headers mappings now) st rows =
        Except.error e) ↔ _
      rw [ih st]
      constructor
      · rintro ⟨hw, row, hmem, hrv⟩
        exact ⟨hw, row, by simp [hmem], hrv⟩
      · rintro ⟨hw, row, hmem, hrv⟩
        rcases List.mem_cons.mp hmem with rfl | hmem2
        · rw [hrv] at hv
          cases hv rfl
        · exact ⟨hw, row, hmem2, hrv⟩

/-- C4 (corrected; counterexample): with a failing duplicate-lookup read (and
healthy writes) the save run over one valid row does not abort and surfaces
no error — it completes, silently treating the row as not-a-duplicate and
creating a fresh contact — contrary to the claim that a storage read failure
aborts the run and is never converted into a not-duplicate result. -/
theorem c4_counterexample :
    checkForDuplicatesE ⟨[], 0, true, false⟩
        [(js "email", js "a@x.com")] = ⟨false, none, 0⟩ ∧
    saveRunE ⟨[], 0, true, false⟩
        [js "first", js "last", js "email", js "phone"]
        [⟨js "first", js "firstName", 90, js "text", [], false⟩,
         ⟨js "last", js "lastName", 90, js "text", [], false⟩,
         ⟨js "email", js "email", 95, js "email", [], false⟩,
         ⟨js "phone", js "phone", 85, js "phone", [], false⟩]
        7
        [[js "John", js "Smith", js "a@x.com", js "5551234567"]] =
      Except.ok
        (⟨[⟨0, js "John", js "Smith", js "a@x.com", js "5551234567", [], 7, 7⟩],
          1, true, false⟩, 1, 0) := by
  constructor
  · rfl
  · rfl

/-- C4 (amended): a failing duplicate-lookup read is caught inside
`checkForDuplicates` and silently converted into a not-duplicate result; the
save run aborts with a single top-level error exactly when a create/merge
write fails, i.e. when the store rejects writes and some row is valid; the
counting pass itself never surfaces a store error. -/
theorem c4_amended (s : FaultyStore) (headers : List Str) (mappings : List Mapping)
    (now : Nat) (rows : List (List Str)) :
    (s.searchErr = true → ∀ cd, checkForDuplicatesE s cd = ⟨false, none, 0⟩) ∧
    ((∃ e, saveRunE s headers mappings now rows = Except.error e) ↔
      (s.writeErr = true ∧ ∃ row ∈ rows, rowValid headers mappings row = true)) ∧
    (∃ r, startProcessingE s headers mappings rows = Except.ok r) := by
  refine ⟨fun hs cd => checkForDuplicatesE_searchErr s hs cd, ?_, ⟨_, rfl⟩⟩
  unfold saveRunE
  exact saveRunE_error_iff headers mappings now rows (s, 0, 0)

/-- C4 amended, witness: with failing writes, the save over one valid row
aborts with a top-level error. -/
theorem c4_amended_witness :
    ∃ e, saveRunE ⟨[], 0, false, true⟩
        [js "first", js "last", js "email", js "phone"]
        [⟨js "first", js "firstName", 90, js "text", [], false⟩,
         ⟨js "last", js "lastName", 90, js "text", [], false⟩,
         ⟨js "email", js "email", 95, js "email", [], false⟩,
         ⟨js "phone", js "phone", 85, js "phone", [], false⟩]
        7
        [[js "John", js "Smith", js "a@x.com", js "5551234567"]] =
      Except.error e := by
  have h := c4_amended ⟨[], 0, false, true⟩
    [js "first", js "last", js "email", js "phone"]
    [⟨js "first", js "firstName", 90, js "text", [], false⟩,
     ⟨js "last", js "lastName", 90, js "text", [], false⟩,
     ⟨js "email", js "email", 95, js "email", [], false⟩,
     ⟨js "phone", js "phone", 85, js "phone", [], false⟩]
    7
    [[js "John", js "Smith", js "a@x.com", js "5551234567"]]
  exact h.2.1.mpr ⟨rfl, [js "John", js "Smith", js "a@x.com", js "5551234567"],
    by simp, by decide⟩

/-- C8 witness: a concrete session that uploads, detects, reviews and
advances with one concrete mapping reaches processing, and the theorem
applies to it. -/
theorem c8_processing_entry_gate_witness :
    hasConcreteField
      ((modalStep (modalStep (modalStep (modalStep initialModalState
        ModalEvent.fileUploaded)
        (ModalEvent.aiDetectionComplete
          [⟨js "a", js "firstName", 90, js "text", [], false⟩]))
        (ModalEvent.fieldMappingContinue
          [⟨js "a", js "firstName", 90, js "text", [], false⟩]))
        ModalEvent.footerNext).fieldMappings) = true :=
  c8_processing_entry_gate _
    (ModalReachable.next _ (ModalReachable.next _ (ModalReachable.next _
      (ModalReachable.next _ ModalReachable.init)))) (by decide)

/-! ## C3: merge overwrite semantics -/

theorem mergeExtra_find_of_upd (base upd : List (Str × Str)) (k : Str)
    (h : (upd.find? (fun p => p.1 == k)).isSome = true) :
    (mergeExtra base upd).find? (fun p => p.1 == k) =
      upd.find? (fun p => p.1 == k) := by
  unfold mergeExtra
  rw [List.find?_append]
  have hnone : (base.filter (fun p => !(upd.any (fun q => q.1 == p.1)))).find?
      (fun p => p.1 == k) = none := by
    rw [List.find?_eq_none]
    intro x hx hpx
    rw [List.mem_filter] at hx
    obtain ⟨q, hq, hqk⟩ := List.find?_isSome.mp h
    have h1 : q.1 = k := by simpa using hqk
    have h2 : x.1 = k := by simpa using hpx
    have hany : upd.any (fun q2 => q2.1 == x.1) = true :=
      List.any_eq_true.mpr ⟨q, hq, by simp [h1, h2]⟩
    rw [hany] at hx
    simp at hx
  rw [hnone]
  cases upd.find? (fun p => p.1 == k) <;> rfl

theorem mergeExtra_find_of_not_upd (base upd : List (Str × Str)) (k : Str)
    (h : upd.find? (fun p => p.1 == k) = none) :
    (mergeExtra base upd).find? (fun p => p.1 == k) =
      base.find? (fun p => p.1 == k) := by
  unfold mergeExtra
  rw [List.find?_append, h]
  rw [find?_filter_of_imp base (fun p => p.1 == k)
    (fun p => !(upd.any (fun q => q.1 == p.1))) ?_]
  · cases base.find? (fun p => p.1 == k) <;> rfl
  · intro x hx
    have hxk : x.1 = k := by simpa using hx
    rw [List.find?_eq_none] at h
    have : upd.any (fun q2 => q2.1 == x.1) = false := by
      rw [Bool.eq_false_iff]
      intro hany
      obtain ⟨q, hq, hqx⟩ := List.any_eq_true.mp hany
      exact h q hq (by
        have : q.1 = x.1 := by simpa using hqx
        simp [this, hxk])
    simp [this]

theorem cdExtra_find (cd : ContactData) (k : Str)
    (hk : coreKeys.any (fun c => c == k) = false) :
    (cdExtra cd).find? (fun p => p.1 == k) = cd.find? (fun p => p.1 == k) := by
  unfold cdExtra
  apply find?_filter_of_imp
  intro x hx
  have hxk : x.1 = k := by simpa using hx
  rw [hxk, hk]
  rfl

theorem coreKeys_any_false (k : Str)
    (h1 : (k == js "firstName") = false) (h2 : (k == js "lastName") = false)
    (h3 : (k == js "email") = false) (h4 : (k == js "phone") = false) :
    coreKeys.any (fun c => c == k) = false := by
  have e1 : k ≠ js "firstName" := by simpa using h1
  have e2 : k ≠ js "lastName" := by simpa using h2
  have e3 : k ≠ js "email" := by simpa using h3
  have e4 : k ≠ js "phone" := by simpa using h4
  simp [coreKeys, e1, e2, e3, e4]
  refine ⟨?_, ?_, ?_, ?_⟩ <;> intro hc <;> simp_all

theorem spreadContact_supplied (ex : Contact) (cd : ContactData) (now : Nat)
    (k v : Str) (h : cdGet cd k = some v) :
    fieldGet (spreadContact ex cd now) k = some v := by
  unfold fieldGet spreadContact
  by_cases h1 : (k == js "firstName") = true
  · have hk : k = js "firstName" := by simpa using h1
    subst hk
    rw [if_pos h1]
    simp only [h]
    rfl
  · rw [if_neg h1]
    by_cases h2 : (k == js "lastName") = true
    · have hk : k = js "lastName" := by simpa using h2
      subst hk
      rw [if_pos h2]
      simp only [h]
      rfl
    · rw [if_neg h2]
      by_cases h3 : (k == js "email") = true
      · have hk : k = js "email" := by simpa using h3
        subst hk
        rw [if_pos h3]
        simp only [h]
        rfl
      · rw [if_neg h3]
        by_cases h4 : (k == js "phone") = true
        · have hk : k = js "phone" := by simpa using h4
          subst hk
          rw [if_pos h4]
          simp only [h]
          rfl
        · rw [if_neg h4]
          unfold extraGet
          show ((mergeExtra ex.extra (cdExtra cd)).find?
            (fun p => p.1 == k)).map (fun p => p.2) = some v
          have hk := coreKeys_any_false k (by simpa using h1) (by simpa using h2)
            (by simpa using h3) (by simpa using h4)
          have hcd : cd.find? (fun p => p.1 == k) ≠ none := by
            intro hn
            unfold cdGet at h
            rw [hn] at h
            cases h
          have hsome : ((cdExtra cd).find? (fun p => p.1 == k)).isSome = true := by
            rw [cdExtra_find cd k hk]
            cases hc : cd.find? (fun p => p.1 == k) with
            | none => exact absurd hc hcd
            | some p => rfl
          rw [mergeExtra_find_of_upd ex.extra (cdExtra cd) k hsome,
            cdExtra_find cd k hk]
          exact h

theorem spreadContact_unsupplied (ex : Contact) (cd : ContactData) (now : Nat)
    (k : Str) (h : cdGet cd k = none) :
    fieldGet (spreadContact ex cd now) k = fieldGet ex k := by
  have hfind : cd.find? (fun p => p.1 == k) = none := by
    unfold cdGet at h
    cases hc : cd.find? (fun p => p.1 == k) with
    | none => rfl
    | some p => rw [hc] at h; cases h
  unfold fieldGet spreadContact
  by_cases h1 : (k == js "firstName") = true
  · have hk : k = js "firstName" := by simpa using h1
    subst hk
    rw [if_pos h1, if_pos h1]
    simp only [h]
    rfl
  · rw [if_neg h1, if_neg h1]
    by_cases h2 : (k == js "lastName") = true
    · have hk : k = js "lastName" := by simpa using h2
      subst hk
      rw [if_pos h2, if_pos h2]
      simp only [h]
      rfl
    · rw [if_neg h2, if_neg h2]
      by_cases h3 : (k == js "email") = true
      · have hk : k = js "email" := by simpa using h3
        subst hk
        rw [if_pos h3, if_pos h3]
        simp only [h]
        rfl
      · rw [if_neg h3, if_neg h3]
        by_cases h4 : (k == js "phone") = true
        · have hk : k = js "phone" := by simpa using h4
          subst hk
          rw [if_pos h4, if_pos h4]
          simp only [h]
          rfl
        · rw [if_neg h4, if_neg h4]
          unfold extraGet
          show ((mergeExtra ex.extra (cdExtra cd)).find?
              (fun p => p.1 == k)).map (fun p => p.2) =
            (ex.extra.find? (fun p => p.1 == k)).map (fun p => p.2)
          have hk := coreKeys_any_false k (by simpa using h1) (by simpa using h2)
            (by simpa using h3) (by simpa using h4)
          have hupd : (cdExtra cd).find? (fun p => p.1 == k) = none := by
            rw [cdExtra_find cd k hk, hfind]
          rw [mergeExtra_find_of_not_upd ex.extra (cdExtra cd) k hupd]

def c3Store : List Contact :=
  [⟨5, js "Jane", js "Roe", js "jane@x.com", js "5551112222",
    [(js "agentUid", js "u1")], 0, 0⟩]

def c3Headers : List Str := [js "first", js "last", js "email", js "phone", js "agent"]

def c3Mappings : List Mapping :=
  [⟨js "first", js "firstName", 90, js "text", [], false⟩,
   ⟨js "last", js "lastName", 90, js "text", [], false⟩,
   ⟨js "email", js "email", 95, js "email", [], false⟩,
   ⟨js "phone", js "phone", 85, js "phone", [], false⟩,
   ⟨js "agent", js "agentUid", 80, js "text", [], false⟩]

def c3Row : List Str :=
  [js "Jane", js "Roe", js "jane@x.com", js "5551112222", js " "]

/-- C3 (corrected; counterexample): a whitespace-only agent cell builds a
candidate that supplies `agentUid` as the empty string; the row validates,
merges into the stored contact by email, and the spread overwrites the stored
`agentUid` value `"u1"` with the empty string — the claim said a field
supplied as empty is left unchanged. -/
theorem c3_counterexample :
    cdGet (buildContactData c3Headers c3Mappings c3Row) (js "agentUid") = some [] ∧
    (validateContactData (buildContactData c3Headers c3Mappings c3Row)).isEmpty = true ∧
    (saveRowStep c3Headers c3Mappings 9 ⟨c3Store, 10, 0, 0⟩ c3Row).mergedCount = 1 ∧
    (saveRowStep c3Headers c3Mappings 9 ⟨c3Store, 10, 0, 0⟩ c3Row).store.map
      (fun c => extraGet c (js "agentUid")) = [some []] ∧
    c3Store.map (fun c => extraGet c (js "agentUid")) = [some (js "u1")] := by
  refine ⟨rfl, rfl, ?_, rfl, rfl⟩
  rfl

/-- C3 (amended): when the pipeline merges a validated candidate into a
matched stored contact, fields are overwritten exactly where the candidate
supplies a value — including a value that is the empty string, as produced by
a whitespace-only cell; every field the candidate does not supply at all is
left unchanged, the identity and creation timestamp are preserved, and the
update timestamp is refreshed. -/
theorem c3_amended (headers : List Str) (mappings : List Mapping) (now : Nat)
    (st : SaveState) (row : List Str) (ex : Contact)
    (hvalid : rowValid headers mappings row = true)
    (hdup : (checkForDuplicates st.store
      (buildContactData headers mappings row)).isDuplicate = true)
    (hex : (checkForDuplicates st.store
      (buildContactData headers mappings row)).existingContact = some ex) :
    (saveRowStep headers mappings now st row).store =
      updateContactInStore st.store ex.id
        (spreadContact ex (buildContactData headers mappings row) now) ∧
    (∀ k v, cdGet (buildContactData headers mappings row) k = some v →
      fieldGet (spreadContact ex (buildContactData headers mappings row) now) k =
        some v) ∧
    (∀ k, cdGet (buildContactData headers mappings row) k = none →
      fieldGet (spreadContact ex (buildContactData headers mappings row) now) k =
        fieldGet ex k) ∧
    (spreadContact ex (buildContactData headers mappings row) now).updatedAt = now ∧
    (spreadContact ex (buildContactData headers mappings row) now).id = ex.id ∧
    (spreadContact ex (buildContactData headers mappings row) now).createdAt =
      ex.createdAt := by
  refine ⟨?_, fun k v h => spreadContact_supplied ex _ now k v h,
    fun k h => spreadContact_unsupplied ex _ now k h, rfl, rfl, rfl⟩
  simp only [saveRowStep]
  unfold rowValid at hvalid
  rw [if_neg (by simp [hvalid])]
  rw [hdup, hex]

/-- C3 amended, witness: the concrete merge above instantiates the theorem. -/
theorem c3_amended_witness :
    (spreadContact ⟨5, js "Jane", js "Roe", js "jane@x.com", js "5551112222",
        [(js "agentUid", js "u1")], 0, 0⟩
      (buildContactData c3Headers c3Mappings c3Row) 9).updatedAt = 9 :=
  (c3_amended c3Headers c3Mappings 9 ⟨c3Store, 10, 0, 0⟩ c3Row
    ⟨5, js "Jane", js "Roe", js "jane@x.com", js "5551112222",
      [(js "agentUid", js "u1")], 0, 0⟩
    (by decide) (by decide) (by decide)).2.2.2.1

/-! ## C1: duplicate resolver rule chain -/

def dupOut (d : DupResult) : Bool × Nat := (d.isDuplicate, d.confidence)

def specCheckDup (store : List Contact) (cd : ContactData) : Bool × Nat :=
  let email := if jsTruthyO (cdGet cd (js "email")) then
      normalizeEmail ((cdGet cd (js "email")).getD []) else []
  let phone := if jsTruthyO (cdGet cd (js "phone")) then
      normalizePhone ((cdGet cd (js "phone")).getD []) else []
  let firstName := jsTrim (jsLower ((cdGet cd (js "firstName")).getD []))
  let lastName := jsTrim (jsLower ((cdGet cd (js "lastName")).getD []))
  if jsTruthy email && store.any (fun c => normalizeEmail c.email == email) then
    (true, 100)
  else if jsTruthy phone && store.any (fun c =>
      searchRowMatch (jsLower phone) c && (normalizePhone c.phone == phone)) then
    (true, 95)
  else if (jsTruthy firstName && jsTruthy lastName) && store.any (fun c =>
      searchRowMatch (jsLower (firstName ++ js " " ++ lastName)) c &&
      (jsTrim (jsLower c.firstName) == firstName &&
        jsTrim (jsLower c.lastName) == lastName)) then
    (true, 70)
  else (false, 0)

theorem any_email_search (store : List Contact) (E : Str) :
    store.any (fun c => searchRowMatch (jsLower E) c &&
      (normalizeEmail c.email == E)) =
    store.any (fun c => normalizeEmail c.email == E) := by
  cases h : store.any (fun c => normalizeEmail c.email == E) with
  | true =>
    obtain ⟨c, hc, hcE⟩ := List.any_eq_true.mp h
    have heq : normalizeEmail c.email = E := by simpa using hcE
    rw [List.any_eq_true]
    refine ⟨c, hc, ?_⟩
    rw [Bool.and_eq_true]
    refine ⟨?_, hcE⟩
    unfold searchRowMatch
    rw [← heq, jsLower_normalizeEmail]
    have : jsIncludes (jsLower c.email) (normalizeEmail c.email) = true := by
      unfold normalizeEmail
      exact jsIncludes_trim_self (jsLower c.email)
    simp [this]
  | false =>
    rw [Bool.eq_false_iff] at h ⊢
    intro hany
    apply h
    obtain ⟨c, hc, hcE⟩ := List.any_eq_true.mp hany
    rw [Bool.and_eq_true] at hcE
    exact List.any_eq_true.mpr ⟨c, hc, hcE.2⟩

/-- C1 (amended): the resolver evaluates email (100), phone (95), name (70)
in strict order with the first hit winning, but each rule only sees contacts
returned by the substring search: the email rule is equivalent to plain
normalized-email equality (a trimmed lowercased string is always a substring
of the lowercased field), while the phone and name rules additionally require
some field of the stored contact to contain the digit string, resp. the
`"first last"` search term, as a substring. -/
theorem c1_amended (store : List Contact) (cd : ContactData) :
    dupOut (checkForDuplicates store cd) = specCheckDup store cd := by
  simp only [checkForDuplicates, specCheckDup]
  generalize (if jsTruthyO (cdGet cd (js "email")) = true then
      normalizeEmail ((cdGet cd (js "email")).getD []) else ([] : Str)) = E
  generalize (if jsTruthyO (cdGet cd (js "phone")) = true then
      normalizePhone ((cdGet cd (js "phone")).getD []) else ([] : Str)) = P
  generalize jsTrim (jsLower ((cdGet cd (js "firstName")).getD [])) = F
  generalize jsTrim (jsLower ((cdGet cd (js "lastName")).getD [])) = L
  have hname : dupOut
      (match (if (jsTruthy F && jsTruthy L) = true then
          (searchContacts store (F ++ js " " ++ L)).find? (fun c =>
            jsTrim (jsLower c.firstName) == F && jsTrim (jsLower c.lastName) == L)
        else none) with
      | some c => (⟨true, some c, 70⟩ : DupResult)
      | none => ⟨false, none, 0⟩) =
      (if ((jsTruthy F && jsTruthy L) && store.any (fun c =>
          searchRowMatch (jsLower (F ++ js " " ++ L)) c &&
          (jsTrim (jsLower c.firstName) == F &&
            jsTrim (jsLower c.lastName) == L))) = true then
        (true, 70)
      else ((false : Bool), (0 : Nat))) := by
    by_cases hg : (jsTruthy F && jsTruthy L) = true
    · rw [if_pos hg]
      have hiso := searchContacts_find_isSome store (F ++ js " " ++ L)
        (fun c => jsTrim (jsLower c.firstName) == F &&
          jsTrim (jsLower c.lastName) == L)
      cases hfind : (searchContacts store (F ++ js " " ++ L)).find? (fun c =>
          jsTrim (jsLower c.firstName) == F &&
          jsTrim (jsLower c.lastName) == L) with
      | some c =>
        rw [hfind] at hiso
        have hcond : ((jsTruthy F && jsTruthy L) && store.any (fun c =>
            searchRowMatch (jsLower (F ++ js " " ++ L)) c &&
            (jsTrim (jsLower c.firstName) == F &&
              jsTrim (jsLower c.lastName) == L))) = true := by
          rw [hg, ← hiso]
          rfl
        rw [if_pos hcond]
        rfl
      | none =>
        rw [hfind] at hiso
        have hcond : ¬(((jsTruthy F && jsTruthy L) && store.any (fun c =>
            searchRowMatch (jsLower (F ++ js " " ++ L)) c &&
            (jsTrim (jsLower c.firstName) == F &&
              jsTrim (jsLower c.lastName) == L))) = true) := by
          rw [← hiso]
          simp
        rw [if_neg hcond]
        rfl
    · have hcond : ¬(((jsTruthy F && jsTruthy L) && store.any (fun c =>
          searchRowMatch (jsLower (F ++ js " " ++ L)) c &&
          (jsTrim (jsLower c.firstName) == F &&
            jsTrim (jsLower c.lastName) == L))) = true) := by
        simp [hg]
      rw [if_neg hg, if_neg hcond]
      rfl
  have hrest : dupOut
      (match (if jsTruthy P = true then
          (searchContacts store P).find? (fun c => normalizePhone c.phone == P)
        else none) with
      | some c => (⟨true, some c, 95⟩ : DupResult)
      | none =>
        match (if (jsTruthy F && jsTruthy L) = true then
            (searchContacts store (F ++ js " " ++ L)).find? (fun c =>
              jsTrim (jsLower c.firstName) == F && jsTrim (jsLower c.lastName) == L)
          else none) with
        | some c => (⟨true, some c, 70⟩ : DupResult)
        | none => ⟨false, none, 0⟩) =
      (if (jsTruthy P && store.any (fun c =>
          searchRowMatch (jsLower P) c && (normalizePhone c.phone == P))) = true then
        (true, 95)
      else if ((jsTruthy F && jsTruthy L) && store.any (fun c =>
          searchRowMatch (jsLower (F ++ js " " ++ L)) c &&
          (jsTrim (jsLower c.firstName) == F &&
            jsTrim (jsLower c.lastName) == L))) = true then
        (true, 70)
      else ((false : Bool), (0 : Nat))) := by
    by_cases hg : jsTruthy P = true
    · rw [if_pos hg]
      have hiso := searchContacts_find_isSome store P
        (fun c => normalizePhone c.phone == P)
      cases hfind : (searchContacts store P).find? (fun c =>
          normalizePhone c.phone == P) with
      | some c =>
        rw [hfind] at hiso
        have hcond : (jsTruthy P && store.any (fun c =>
            searchRowMatch (jsLower P) c && (normalizePhone c.phone == P))) = true := by
          rw [hg, ← hiso]
          rfl
        rw [if_pos hcond]
        rfl
      | none =>
        rw [hfind] at hiso
        have hcond : ¬((jsTruthy P && store.any (fun c =>
            searchRowMatch (jsLower P) c && (normalizePhone c.phone == P))) = true) := by
          rw [← hiso]
          simp
        rw [if_neg hcond]
        exact hname
    · have hcond : ¬((jsTruthy P && store.any (fun c =>
          searchRowMatch (jsLower P) c && (normalizePhone c.phone == P))) = true) := by
        simp [hg]
      rw [if_neg hg, if_neg hcond]
      exact hname
  by_cases hg : jsTruthy E = true
  · rw [if_pos hg]
    have hiso := searchContacts_find_isSome store E
      (fun c => normalizeEmail c.email == E)
    rw [any_email_search store E] at hiso
    cases hfind : (searchContacts store E).find? (fun c =>
        normalizeEmail c.email == E) with
    | some c =>
      rw [hfind] at hiso
      have hcond : (jsTruthy E && store.any (fun c =>
          normalizeEmail c.email == E)) = true := by
        rw [hg, ← hiso]
        rfl
      rw [if_pos hcond]
      rfl
    | none =>
      rw [hfind] at hiso
      have hcond : ¬((jsTruthy E && store.any (fun c =>
          normalizeEmail c.email == E)) = true) := by
        rw [← hiso]
        simp
      rw [if_neg hcond]
      exact hrest
  · have hcond : ¬((jsTruthy E && store.any (fun c =>
        normalizeEmail c.email == E)) = true) := by
      simp [hg]
    rw [if_neg hg, if_neg hcond]
    exact hrest

def c1Store : List Contact :=
  [⟨0, js "John", js "Smith", js "j@s.com", js "1112223333", [], 0, 0⟩]

def c1cd : ContactData :=
  [(js "firstName", js "John"), (js "lastName", js "Smith"),
   (js "email", js "jj@s.com"), (js "phone", js "9998887777")]

/-- C1 (corrected; counterexample): candidate John Smith shares first and last
name (case-insensitively, trimmed) with the stored contact while neither the
email nor the phone rule applies, so the claim demands duplicate at
confidence 70 — but the resolver searches for the single term
`"john smith"`, no field of the stored contact contains it, and the result is
not-duplicate with confidence 0. -/
theorem c1_counterexample :
    (∃ c ∈ c1Store, jsTrim (jsLower c.firstName) = jsTrim (jsLower (js "John")) ∧
      jsTrim (jsLower c.lastName) = jsTrim (jsLower (js "Smith"))) ∧
    (¬ ∃ c ∈ c1Store, normalizeEmail c.email = normalizeEmail (js "jj@s.com")) ∧
    (¬ ∃ c ∈ c1Store, normalizePhone c.phone = normalizePhone (js "9998887777")) ∧
    checkForDuplicates c1Store c1cd = ⟨false, none, 0⟩ := by
  refine ⟨?_, ?_, ?_, ?_⟩ <;> decide

/-! ## C9: re-running the pipeline after a first run -/

theorem saveRowStep_mergedCount_le (headers : List Str) (mappings : List Mapping)
    (now : Nat) (st : SaveState) (row : List Str) :
    st.mergedCount ≤ (saveRowStep headers mappings now st row).mergedCount := by
  simp only [saveRowStep]
  split
  · exact Nat.le_refl _
  · split
    · exact Nat.le_succ _
    · exact Nat.le_refl _

theorem saveFold_mergedCount_le (headers : List Str) (mappings : List Mapping)
    (now : Nat) :
    ∀ (rows : List (List Str)) (st : SaveState),
      st.mergedCount ≤ (rows.foldl (saveRowStep headers mappings now) st).mergedCount := by
  intro rows
  induction rows with
  | nil => intro st; exact Nat.le_refl _
  | cons a rows ih =>
    intro st
    rw [List.foldl_cons]
    exact Nat.le_trans (saveRowStep_mergedCount_le headers mappings now st a)
      (ih (saveRowStep headers mappings now st a))

theorem saveRowStep_no_merge (headers : List Str) (mappings : List Mapping)
    (now : Nat) (st : SaveState) (row : List Str)
    (hm : (saveRowStep headers mappings now st row).mergedCount = st.mergedCount) :
    (rowValid headers mappings row = false ∧
      saveRowStep headers mappings now st row = st) ∨
    (rowValid headers mappings row = true ∧
      (saveRowStep headers mappings now st row).store =
        st.store ++ [freshContact (buildContactData headers mappings row)
          st.nextId now]) := by
  by_cases hv : rowValid headers mappings row = true
  · right
    refine ⟨hv, ?_⟩
    unfold rowValid at hv
    cases hd : (checkForDuplicates st.store
        (buildContactData headers mappings row)).isDuplicate with
    | true =>
      cases he : (checkForDuplicates st.store
          (buildContactData headers mappings row)).existingContact with
      | some ex =>
        exfalso
        simp only [saveRowStep] at hm
        rw [if_neg (by simp [hv]), hd, he] at hm
        simp at hm
      | none =>
        simp only [saveRowStep]
        rw [if_neg (by simp [hv]), hd, he]
    | false =>
      cases he : (checkForDuplicates st.store
          (buildContactData headers mappings row)).existingContact with
      | some ex =>
        simp only [saveRowStep]
        rw [if_neg (by simp [hv]), hd, he]
      | none =>
        simp only [saveRowStep]
        rw [if_neg (by simp [hv]), hd, he]
  · left
    have hvf : rowValid headers mappings row = false := by
      cases h : rowValid headers mappings row with
      | false => rfl
      | true => exact absurd h hv
    exact ⟨hvf, saveRowStep_invalid headers mappings now st row hvf⟩

theorem saveFold_creates (headers : List Str) (mappings : List Mapping) (now : Nat) :
    ∀ (rows : List (List Str)) (st : SaveState),
      (rows.foldl (saveRowStep headers mappings now) st).mergedCount = st.mergedCount →
      st.store <+: (rows.foldl (saveRowStep headers mappings now) st).store ∧
      ∀ row ∈ rows, rowValid headers mappings row = true →
        ∃ c ∈ (rows.foldl (saveRowStep headers mappings now) st).store,
          c.email = (cdGet (buildContactData headers mappings row) (js "email")).getD [] := by
  intro rows
  induction rows with
  | nil =>
    intro st _
    exact ⟨List.prefix_rfl, fun row hrow => absurd hrow (List.not_mem_nil row)⟩
  | cons a rows ih =>
    intro st hm
    rw [List.foldl_cons] at hm ⊢
    have hstep_le := saveRowStep_mergedCount_le headers mappings now st a
    have hfold_le := saveFold_mergedCount_le headers mappings now rows
      (saveRowStep headers mappings now st a)
    have hstep_eq : (saveRowStep headers mappings now st a).mergedCount =
        st.mergedCount := by omega
    have hrest_eq : (rows.foldl (saveRowStep headers mappings now)
        (saveRowStep headers mappings now st a)).mergedCount =
        (saveRowStep headers mappings now st a).mergedCount := by omega
    obtain ⟨hpre, hrows⟩ := ih (saveRowStep headers mappings now st a) hrest_eq
    rcases saveRowStep_no_merge headers mappings now st a hstep_eq with
      ⟨hvf, hid⟩ | ⟨hvt, happ⟩
    · rw [hid] at hpre hrows ⊢
      refine ⟨hpre, ?_⟩
      intro row hrow hrv
      rcases List.mem_cons.mp hrow with rfl | hmem
      · rw [hrv] at hvf
        cases hvf
      · exact hrows row hmem hrv
    · constructor
      · calc st.store <+: (saveRowStep headers mappings now st a).store := by
              rw [happ]; exact ⟨_, rfl⟩
          _ <+: (rows.foldl (saveRowStep headers mappings now)
              (saveRowStep headers mappings now st a)).store := hpre
      · intro row hrow hrv
        rcases List.mem_cons.mp hrow with rfl | hmem
        · refine ⟨freshContact (buildContactData headers mappings row) st.nextId now,
            ?_, rfl⟩
          apply hpre.subset
          rw [happ]
          exact List.mem_append_right _ (List.mem_singleton_self _)
        · exact hrows row hmem hrv

theorem validate_email_present (cd : ContactData)
    (hv : validateContactData cd = []) :
    ∃ ev, cdGet cd (js "email") = some ev ∧ jsTruthy (jsTrim ev) = true := by
  have hiff := validateContactData_ne_nil_iff cd
  have hnb : presentNonBlank (cdGet cd (js "email")) = true := by
    cases h : presentNonBlank (cdGet cd (js "email")) with
    | true => rfl
    | false =>
      exact absurd hv (by
        intro hnil
        exact (hiff.mpr (Or.inr (Or.inr (Or.inl h)))) hnil)
  unfold presentNonBlank at hnb
  cases h : cdGet cd (js "email") with
  | none => rw [h] at hnb; cases hnb
  | some ev =>
    rw [h] at hnb
    exact ⟨ev, rfl, hnb⟩

theorem dup_of_email_in_store (store : List Contact) (cd : ContactData) (ev : Str)
    (hcd : cdGet cd (js "email") = some ev)
    (hne : jsTruthy (jsTrim ev) = true)
    (hmem : ∃ c ∈ store, c.email = ev) :
    (checkForDuplicates store cd).isDuplicate = true := by
  have htr : jsTruthyO (cdGet cd (js "email")) = true := by
    rw [hcd]
    show jsTruthy ev = true
    unfold jsTruthy at hne ⊢
    cases hevnil : ev with
    | nil => rw [hevnil, jsTrim] at hne; simp at hne
    | cons a l => simp
  have hemail : jsTruthy (normalizeEmail ev) = true := by
    have hlen := jsTrim_length_lower ev
    unfold normalizeEmail
    unfold jsTruthy at hne ⊢
    cases h1 : jsTrim (jsLower ev) with
    | nil =>
      exfalso
      rw [h1] at hlen
      have : jsTrim ev = [] := List.length_eq_zero.mp hlen.symm
      rw [this] at hne
      simp at hne
    | cons a l => simp
  simp only [checkForDuplicates]
  rw [if_pos htr, hcd]
  simp only [Option.getD_some]
  rw [if_pos hemail]
  have hany : store.any (fun c => searchRowMatch (jsLower (normalizeEmail ev)) c &&
      (normalizeEmail c.email == normalizeEmail ev)) = true := by
    obtain ⟨c, hc, hce⟩ := hmem
    rw [List.any_eq_true]
    refine ⟨c, hc, ?_⟩
    rw [Bool.and_eq_true]
    constructor
    · unfold searchRowMatch
      rw [jsLower_normalizeEmail]
      have : jsIncludes (jsLower c.email) (normalizeEmail ev) = true := by
        rw [← hce]
        exact jsIncludes_trim_self (jsLower c.email)
      simp [this]
    · rw [hce]
      simp
  have hiso := searchContacts_find_isSome store (normalizeEmail ev)
    (fun c => normalizeEmail c.email == normalizeEmail ev)
  rw [hany] at hiso
  cases hfind : (searchContacts store (normalizeEmail ev)).find? (fun c =>
      normalizeEmail c.email == normalizeEmail ev) with
  | none => rw [hfind] at hiso; cases hiso
  | some c => rfl


theorem snd_mem_of_mem_enumFrom {α : Type} {p : Nat × α} {n : Nat} {l : List α}
    (h : p ∈ List.enumFrom n l) : p.2 ∈ l := by
  have hm := List.mem_map_of_mem Prod.snd h
  rwa [List.enumFrom_map_snd] at hm

/-- C9 (amended): if a first save run merged nothing (every valid row was
created fresh), then re-running the counting pass over the resulting store
with the unchanged table and mappings classifies every valid row as a merge:
`imported` is 0 and `merged` counts exactly the valid rows. -/
theorem c9_amended (store : List Contact) (nextId : Nat) (headers : List Str)
    (mappings : List Mapping) (rows : List (List Str)) (priorErrors now : Nat)
    (st : SaveState) (out : ProcessingResults)
    (hrun : handleMoveToContacts store nextId headers mappings rows priorErrors now =
      some (st, out))
    (hnomerge : out.merged = 0) :
    (startProcessing st.store headers mappings rows).imported = 0 ∧
    (startProcessing st.store headers mappings rows).merged =
      rows.countP (fun row => rowValid headers mappings row) := by
  unfold handleMoveToContacts at hrun
  by_cases hg : (mappings.isEmpty || decide (0 < priorErrors)) = true
  · rw [if_pos hg] at hrun
    cases hrun
  · rw [if_neg hg] at hrun
    rw [Option.some.injEq, Prod.mk.injEq] at hrun
    obtain ⟨hst, hout⟩ := hrun
    have hm0 : (rows.foldl (saveRowStep headers mappings now)
        ⟨store, nextId, 0, 0⟩).mergedCount = 0 := by
      have h1 := congrArg ProcessingResults.merged hout
      exact h1.trans hnomerge
    obtain ⟨hpre, hcreates⟩ := saveFold_creates headers mappings now rows
      ⟨store, nextId, 0, 0⟩ (by rw [hm0])
    have hdup : ∀ row ∈ rows, rowValid headers mappings row = true →
        rowDup st.store headers mappings row = true := by
      intro row hrow hrv
      have hvnil : validateContactData (buildContactData headers mappings row) = [] := by
        unfold rowValid at hrv
        exact List.isEmpty_iff.mp hrv
      obtain ⟨ev, hev, hevne⟩ := validate_email_present
        (buildContactData headers mappings row) hvnil
      obtain ⟨c, hcmem, hcemail⟩ := hcreates row hrow hrv
      refine dup_of_email_in_store st.store _ ev hev hevne ⟨c, ?_, ?_⟩
      · rw [← hst]
        exact hcmem
      · rw [hcemail, hev]
        rfl
    unfold startProcessing
    rw [countFold_eq]
    constructor
    · show 0 + _ = 0
      rw [Nat.zero_add]
      rw [List.countP_eq_zero]
      intro p hp
      have hmem : p.2 ∈ rows := snd_mem_of_mem_enumFrom hp
      cases hv : rowValid headers mappings p.2 with
      | false => simp [hv]
      | true =>
        rw [hdup p.2 hmem hv]
        simp [hv]
    · show 0 + _ = _
      rw [Nat.zero_add]
      have hcong : ∀ p ∈ rows.enum,
          ((rowValid headers mappings p.2 && rowDup st.store headers mappings p.2) = true) ↔
          ((rowValid headers mappings p.2) = true) := by
        intro p hp
        have hmem : p.2 ∈ rows := snd_mem_of_mem_enumFrom hp
        cases hv : rowValid headers mappings p.2 with
        | false => simp
        | true =>
          rw [hdup p.2 hmem hv]
          simp
      rw [List.countP_congr hcong]
      exact countP_enumFrom (fun row => rowValid headers mappings row) 0 rows

def c9Headers : List Str := [js "first", js "last", js "email", js "phone"]

def c9Mappings : List Mapping :=
  [⟨js "first", js "firstName", 90, js "text", [], false⟩,
   ⟨js "last", js "lastName", 90, js "text", [], false⟩,
   ⟨js "email", js "email", 95, js "email", [], false⟩,
   ⟨js "phone", js "phone", 85, js "phone", [], false⟩]

def c9Rows : List (List Str) :=
  [[js "John", js "Smith", js "a@x.com", js "5551234567"],
   [js "Jane", js "Jones", js "b@x.com", js "555-123-4567"]]

/-- C9 (corrected; counterexample): the first run over an empty store stores
row 1 fresh and merges row 2 into it by phone, overwriting the stored email
and phone; the re-run over the resulting store then counts row 1 under
fresh-imported again (imported 1, merged 1) rather than as a merge — the
claim demanded every previously-stored row be classified as a merge. -/
theorem c9_counterexample :
    c9Rows.all (fun row => rowValid c9Headers c9Mappings row) = true ∧
    ((handleMoveToContacts [] 0 c9Headers c9Mappings c9Rows 0 7).map
      (fun p => (p.1.savedCount, p.1.mergedCount))) = some (1, 1) ∧
    ((handleMoveToContacts [] 0 c9Headers c9Mappings c9Rows 0 7).map
      (fun p => ((startProcessing p.1.store c9Headers c9Mappings c9Rows).imported,
                 (startProcessing p.1.store c9Headers c9Mappings c9Rows).merged,
                 (startProcessing p.1.store c9Headers c9Mappings c9Rows).errors))) =
      some (1, 1, 0) := by
  refine ⟨?_, ?_, ?_⟩ <;> rfl

/-- C9 amended, witness: a one-row first run with no merges instantiates the
theorem; the re-run classifies the row as a merge. -/
theorem c9_amended_witness :
    (startProcessing
        [⟨0, js "John", js "Smith", js "a@x.com", js "5551234567", [], 7, 7⟩]
        c9Headers c9Mappings
        [[js "John", js "Smith", js "a@x.com", js "5551234567"]]).imported = 0 ∧
    (startProcessing
        [⟨0, js "John", js "Smith", js "a@x.com", js "5551234567", [], 7, 7⟩]
        c9Headers c9Mappings
        [[js "John", js "Smith", js "a@x.com", js "5551234567"]]).merged =
      [[js "John", js "Smith", js "a@x.com", js "5551234567"]].countP
        (fun row => rowValid c9Headers c9Mappings row) :=
  c9_amended [] 0 c9Headers c9Mappings
    [[js "John", js "Smith", js "a@x.com", js "5551234567"]] 0 7
    ⟨[⟨0, js "John", js "Smith", js "a@x.com", js "5551234567", [], 7, 7⟩], 1, 1, 0⟩
    ⟨1, 0, 0, []⟩ (by rfl) (by rfl)

end ContactImporter
